import Mathlib

/-!
# Blog-App backend: authentication, authorization and ownership checks

A shallow embedding of `backend/middleware/auth.js`, the admin routes of
`backend/routes/authRoutes.js`, `deletePost` and `updatePost` of
`backend/controllers/postController.js`, `deleteComment` of
`backend/controllers/commentController.js`, `submitContact` and `markAsRead` of
`backend/controllers/contactController.js`, the error handler of
`backend/server.js`, and the schema of `backend/models/User.js` (the `email`
path, the pre-save hook and `comparePassword`); further `likePost` and
`unlikePost`, the handlers and routes of the contact messages, and of the
client the auth store, the request interceptor, `validateImage`, the category
list of the CreatePost form and the email check of the Register and Login
forms.

Conventions of the embedding

* A JavaScript string is a Lean `String`; `undefined`/`null` is `none`.
* An ObjectId is represented by its 24-digit hexadecimal text, so that
  `ObjectId.toString` is the identity.
* A request/response exchange is a `State`: the collections, the request
  object, and a record of the effects a layer performed (responses written,
  calls of `next`, tokens handed to `jwt.verify`).
* The libraries the code calls (`jsonwebtoken`, Mongoose's id casting and error
  messages, `bcryptjs`, `String.prototype.toLowerCase`) are not part of the
  repository; they are the fields of `Lib` and `Bcrypt`, and every theorem
  holds for all of them, under the hypotheses it states.
* The validators and setters the schemas declare (`required`, `trim`,
  `lowercase`, `minlength`, `maxlength`, `enum`, `match`) are modelled on
  request bodies whose members are strings.
-/

namespace BlogApp

/-- An ObjectId, written as its hexadecimal text. -/
abbrev ObjectId := String

/-- A document of `models/User.js` as a query returns it (`password` has
`select: false`, so it is never part of a loaded document). -/
structure User where
  _id : ObjectId
  name : String
  email : String
  bio : String
  avatar : String
  role : String
deriving DecidableEq

/-- The virtual getter `id` of a Mongoose document: `_id.toString()`. -/
def User.id (u : User) : String := u._id

/-- A document of `models/Post.js`. -/
structure Post where
  _id : ObjectId
  title : String
  content : String
  author : ObjectId
  category : String
  tags : List String
  published : Bool
  views : Int
  image : String
  likes : List ObjectId
  likesCount : Int
deriving DecidableEq

/-- What `res.status(status).json(body)` writes: the status and the members
`success` and `message` of the body, each absent (`none`) when the body has no
such member. Other members (`data`, `count`) are not recorded. -/
structure Response where
  status : Nat
  success : Option Bool
  message : Option String
deriving DecidableEq

/-- The payload `jwt.verify` returns; only its `id` member is read. -/
structure Decoded where
  id : Option String
deriving DecidableEq

/-- The error classes `jwt.verify` throws. -/
inductive JwtError where
  | JsonWebTokenError
  | TokenExpiredError
  | NotBeforeError
deriving DecidableEq

/-- The error Mongoose throws when a value cannot be cast to an ObjectId. -/
inductive DbError where
  | CastError
deriving DecidableEq

/-- The library functions the backend calls. `jwtVerify token secret` is
`jwt.verify(token, secret)`; `castObjectId` is Mongoose's cast of a query value
to an ObjectId (`none` when the cast fails) and `castErrorMessage v` the
`message` of the CastError thrown for `v`; `typeErrorMessage` is the `message`
of the TypeError raised by reading a property of `undefined`;
`validationMessage model failures` is the `message` of the ValidationError a
document of `model` raises for the failing paths with their messages, and
`updateValidationMessage failures` that of update validators;
`enumMessage path value` is the message of a failed `enum` validator, for which
the schemas give none; `newObjectId ids` is the `_id` given to a new document
of a collection that holds `ids`; `toLowerCase` is
`String.prototype.toLowerCase`; `duplicateKeyMessage path value` is the
`message` of the error a unique index raises for a second document with
`value` at `path`. -/
structure Lib where
  jwtVerify : String → String → Except JwtError Decoded
  castObjectId : String → Option ObjectId
  castErrorMessage : String → String
  typeErrorMessage : String
  validationMessage : String → List (String × String) → String
  updateValidationMessage : List (String × String) → String
  enumMessage : String → String → String
  newObjectId : List ObjectId → ObjectId
  toLowerCase : String → String
  duplicateKeyMessage : String → String → String

/-- The members of `process.env` the backend reads. -/
structure ProcessEnv where
  JWT_SECRET : Option String

/-- A document of `models/Comment.js`. -/
structure Comment where
  _id : ObjectId
  content : String
  author : ObjectId
  post : ObjectId
deriving DecidableEq

/-- A document of `models/Contact.js`. -/
structure Contact where
  _id : ObjectId
  name : String
  email : String
  subject : String
  message : String
  status : String
deriving DecidableEq

/-- The parsed JSON body of a request, for bodies whose members are strings:
the members the handlers and the schemas name, each absent (`none`) when the
body has no such member. -/
structure Body where
  title : Option String := none
  content : Option String := none
  category : Option String := none
  image : Option String := none
  postId : Option String := none
  name : Option String := none
  email : Option String := none
  subject : Option String := none
  message : Option String := none
deriving DecidableEq

/-- The parts of the Express request object the layers read or write. -/
structure Req where
  authorization : Option String
  id : String
  user : Option User
  body : Body := {}
deriving DecidableEq

/-- The members of a response body that `Response` does not record: `count`,
the number of items of an array `data`, and `data.likesCount`, each absent
(`none`) when the body has no such member. -/
structure Payload where
  count : Option Int := none
  items : Option Nat := none
  likesCount : Option Int := none
deriving DecidableEq

/-- One request/response exchange together with the collections. `payloads`
holds, in order, the further members of the bodies written that have any. -/
structure State where
  users : List User
  posts : List Post
  req : Req
  sent : List Response
  nextCalls : Nat
  verified : List String
  comments : List Comment := []
  contacts : List Contact := []
  payloads : List Payload := []
deriving DecidableEq

/-- A middleware or route handler. -/
abbrev Layer := State → State

/-- The effect of `res.status(status).json({success, message})`. -/
def State.json (s : State) (status : Nat) (success : Bool) (message : String) : State :=
  { s with sent := s.sent ++ [⟨status, success, message⟩] }

/-- The effect of `next()`. -/
def State.next (s : State) : State :=
  { s with nextCalls := s.nextCalls + 1 }

/-- `String.prototype.startsWith`. -/
def startsWith (s p : String) : Bool := p.data.isPrefixOf s.data

/-- `String.prototype.split` for a separator of one character. -/
def split (sep : Char) : List Char → List (List Char)
  | [] => [[]]
  | c :: cs =>
    if c = sep then [] :: split sep cs
    else
      match split sep cs with
      | [] => [[c]]
      | w :: ws => (c :: w) :: ws

/-- Lines 12-18 of `auth.js`: the value of `token` after the header was read. -/
def bearerToken (authorization : Option String) : Option String :=
  match authorization with
  | none => none
  | some h =>
    if h ≠ "" ∧ startsWith h "Bearer" = true then
      ((split ' ' h.data)[1]?).map String.mk
    else none

/-- The key of line 28: `process.env.JWT_SECRET || "your-secret-key-change-this"`. -/
def jwtSecret (env : ProcessEnv) : String :=
  match env.JWT_SECRET with
  | some k => if k ≠ "" then k else "your-secret-key-change-this"
  | none => "your-secret-key-change-this"

/-- `Model.findById` on a collection: `undefined` finds nothing, a value that
cannot be cast throws, otherwise the document with that `_id` if there is one. -/
def findById {α : Type} (L : Lib) (key : α → ObjectId) (docs : List α)
    (id : Option String) : Except DbError (Option α) :=
  match id with
  | none => .ok none
  | some v =>
    match L.castObjectId v with
    | none => .error .CastError
    | some oid => .ok (docs.find? (fun d => key d == oid))

/-- `Model.findByIdAndDelete`: removes the document with that `_id`, if any. -/
def findByIdAndDelete {α : Type} (L : Lib) (key : α → ObjectId) (docs : List α)
    (id : String) : Except DbError (List α) :=
  match L.castObjectId id with
  | none => .error .CastError
  | some oid => .ok (docs.eraseP (fun d => key d == oid))

/-- The middleware `protect` of `middleware/auth.js`. -/
def protect (L : Lib) (env : ProcessEnv) : Layer := fun s =>
  match bearerToken s.req.authorization with
  | none => s.json 401 false "Not authorized. Please login."
  | some token =>
    if token = "" then s.json 401 false "Not authorized. Please login."
    else
      let s := { s with verified := s.verified ++ [token] }
      match L.jwtVerify token (jwtSecret env) with
      | .error _ => s.json 401 false "Not authorized. Invalid token."
      | .ok decoded =>
        match findById L User._id s.users decoded.id with
        | .error _ => s.json 401 false "Not authorized. Invalid token."
        | .ok none => s.json 401 false "User not found"
        | .ok (some user) => ({ s with req := { s.req with user := some user } }).next

/-- The middleware `isAdmin` of `middleware/auth.js`. -/
def isAdmin : Layer := fun s =>
  match s.req.user with
  | none => s.json 401 false "Not authorized. Please login."
  | some user =>
    if user.role ≠ "admin" then
      s.json 403 false "Access denied. Admin privileges required."
    else s.next

/-- The handler `deletePost` of `controllers/postController.js`. -/
def deletePost (L : Lib) : Layer := fun s =>
  match findById L Post._id s.posts (some s.req.id) with
  | .error _ => s.json 500 false (L.castErrorMessage s.req.id)
  | .ok none => s.json 404 false "Post not found"
  | .ok (some post) =>
    match s.req.user with
    | none => s.json 500 false L.typeErrorMessage
    | some user =>
      let isAuthor : Bool := post.author == user.id
      let isAdmin : Bool := user.role == "admin"
      if !isAuthor && !isAdmin then
        s.json 403 false "You can only delete your own posts"
      else
        match findByIdAndDelete L Post._id s.posts s.req.id with
        | .error _ => s.json 500 false (L.castErrorMessage s.req.id)
        | .ok posts => ({ s with posts := posts }).json 200 true "Post deleted successfully"

/-- Express's dispatch of a route's stack: a layer runs, and the following one
runs only if it called `next`. Returns the names of the layers that ran. -/
def dispatch : List (String × Layer) → State → List String × State
  | [], s => ([], s)
  | (name, f) :: rest, s =>
    let s1 := f s
    if s.nextCalls < s1.nextCalls then
      let r := dispatch rest s1
      (name :: r.1, r.2)
    else ([name], s1)

/-- The handlers `routes/authRoutes.js` imports from
`controllers/authController.js`. -/
structure AuthController where
  register : Layer
  login : Layer
  getProfile : Layer
  updateProfile : Layer
  updatePassword : Layer
  getAllUsers : Layer
  getUserById : Layer
  deleteUser : Layer
  updateUserRole : Layer
  getAdminStats : Layer

/-- One `router.METHOD(path, ...stack)` registration. -/
structure Route where
  method : String
  path : String
  stack : List (String × Layer)

/-- The router of `routes/authRoutes.js`. -/
def authRoutes (L : Lib) (env : ProcessEnv) (C : AuthController) : List Route :=
  [ ⟨"POST", "/register", [("register", C.register)]⟩,
    ⟨"POST", "/login", [("login", C.login)]⟩,
    ⟨"GET", "/profile", [("protect", protect L env), ("getProfile", C.getProfile)]⟩,
    ⟨"PUT", "/profile", [("protect", protect L env), ("updateProfile", C.updateProfile)]⟩,
    ⟨"PUT", "/password", [("protect", protect L env), ("updatePassword", C.updatePassword)]⟩,
    ⟨"GET", "/admin/stats",
      [("protect", protect L env), ("isAdmin", isAdmin), ("getAdminStats", C.getAdminStats)]⟩,
    ⟨"GET", "/admin/users",
      [("protect", protect L env), ("isAdmin", isAdmin), ("getAllUsers", C.getAllUsers)]⟩,
    ⟨"GET", "/admin/users/:id",
      [("protect", protect L env), ("isAdmin", isAdmin), ("getUserById", C.getUserById)]⟩,
    ⟨"DELETE", "/admin/users/:id",
      [("protect", protect L env), ("isAdmin", isAdmin), ("deleteUser", C.deleteUser)]⟩,
    ⟨"PUT", "/admin/users/:id/role",
      [("protect", protect L env), ("isAdmin", isAdmin), ("updateUserRole", C.updateUserRole)]⟩ ]

/-- The effect of `res.status(status).json(body)` for an arbitrary body. -/
def State.send (s : State) (r : Response) : State :=
  { s with sent := s.sent ++ [r] }

/-- The handler `deleteComment` of `controllers/commentController.js`. -/
def deleteComment (L : Lib) : Layer := fun s =>
  match findById L Comment._id s.comments (some s.req.id) with
  | .error _ => s.json 500 false (L.castErrorMessage s.req.id)
  | .ok none => s.json 404 false "Comment not found"
  | .ok (some comment) =>
    match s.req.user with
    | none => s.json 500 false L.typeErrorMessage
    | some user =>
      if comment.author ≠ user.id then
        s.json 403 false "You can only delete your own comments"
      else
        match findByIdAndDelete L Comment._id s.comments s.req.id with
        | .error _ => s.json 500 false (L.castErrorMessage s.req.id)
        | .ok comments =>
          ({ s with comments := comments }).json 200 true "Comment deleted successfully"

/-- The characters `String.prototype.trim` removes and `\s` matches: the
WhiteSpace and LineTerminator code points of ECMAScript. -/
def isWhiteSpace (c : Char) : Bool :=
  let n := c.toNat
  n = 0x9 || n = 0xA || n = 0xB || n = 0xC || n = 0xD || n = 0x20 || n = 0xA0
    || n = 0x1680 || (0x2000 ≤ n && n ≤ 0x200A) || n = 0x2028 || n = 0x2029
    || n = 0x202F || n = 0x205F || n = 0x3000 || n = 0xFEFF

/-- `String.prototype.trim` on the characters of a string. -/
def trimChars (cs : List Char) : List Char :=
  ((cs.dropWhile isWhiteSpace).reverse.dropWhile isWhiteSpace).reverse

/-- `String.prototype.trim`. -/
def trim (s : String) : String := ⟨trimChars s.data⟩

/-- The `length` of a JavaScript string: its number of UTF-16 code units. -/
def jsLength (s : String) : Nat :=
  (s.data.map (fun c => if c.toNat < 0x10000 then 1 else 2)).sum

/-- The `enum` of the path `category` in `models/Post.js`. -/
def postCategories : List String :=
  ["Technology", "React", "CSS", "JavaScript", "Node.js", "MongoDB", "Other"]

/-- The validators `models/Post.js` declares on the string paths, run on the
members an update document sets (after the `trim` setter of `title`): the
failing paths with their messages. -/
def postUpdateFailures (L : Lib) (updates : Body) : List (String × String) :=
  (match updates.title.map trim with
    | none => []
    | some t =>
      if t = "" then [("title", "Title is required")]
      else if 100 < jsLength t then [("title", "Title cannot exceed 100 characters")]
      else [])
  ++ (match updates.content with
    | none => []
    | some c =>
      if c = "" then [("content", "Content is required")]
      else if jsLength c < 10 then [("content", "Content must be at least 10 characters")]
      else [])
  ++ (match updates.category with
    | none => []
    | some c =>
      if c = "" then [("category", "Category is required")]
      else if c ∉ postCategories then [("category", L.enumMessage "category" c)]
      else [])

/-- The document an update document turns a post into: each member it has
replaces the path of that name; members that are not paths of the schema are
dropped. -/
def Post.applyUpdates (p : Post) (updates : Body) : Post :=
  { p with
    title := (updates.title.map trim).getD p.title,
    content := updates.content.getD p.content,
    category := updates.category.getD p.category,
    image := updates.image.getD p.image }

/-- The call `Post.findByIdAndUpdate(id, updates, {new: true, runValidators: true})`:
the id is cast, the update validators run, then the post with that `_id`, if
any, is replaced by the updated one, which is returned. -/
def Post.findByIdAndUpdate (L : Lib) (posts : List Post) (id : String) (updates : Body) :
    Except String (Option Post × List Post) :=
  match L.castObjectId id with
  | none => .error (L.castErrorMessage id)
  | some oid =>
    match postUpdateFailures L updates with
    | f :: fs => .error (L.updateValidationMessage (f :: fs))
    | [] =>
      match posts.find? (fun p => p._id == oid) with
      | none => .ok (none, posts)
      | some p =>
        .ok (some (p.applyUpdates updates),
          posts.map (fun q => if q._id == oid then q.applyUpdates updates else q))

/-- The handler `updatePost` of `controllers/postController.js`. -/
def updatePost (L : Lib) : Layer := fun s =>
  match Post.findByIdAndUpdate L s.posts s.req.id s.req.body with
  | .error message => s.json 400 false message
  | .ok (none, _) => s.json 404 false "post not found"
  | .ok (some _, posts) => ({ s with posts := posts }).json 200 true "Post updated successfully"

/-- The call `Contact.findByIdAndUpdate(id, {status: "read"}, {new: true})`. -/
def Contact.findByIdAndUpdate_read (L : Lib) (contacts : List Contact) (id : String) :
    Except String (Option Contact × List Contact) :=
  match L.castObjectId id with
  | none => .error (L.castErrorMessage id)
  | some oid =>
    match contacts.find? (fun c => c._id == oid) with
    | none => .ok (none, contacts)
    | some c =>
      .ok (some { c with status := "read" },
        contacts.map (fun q => if q._id == oid then { q with status := "read" } else q))

/-- The handler `markAsRead` of `controllers/contactController.js`. -/
def markAsRead (L : Lib) : Layer := fun s =>
  match Contact.findByIdAndUpdate_read L s.contacts s.req.id with
  | .error message => s.json 500 true message
  | .ok (none, _) => s.json 404 false "message not found"
  | .ok (some _, contacts) => ({ s with contacts := contacts }).send ⟨200, some true, none⟩

/-- The error-handling middleware of `server.js`. -/
def errorHandler : Layer := fun s =>
  s.send ⟨500, none, some "Server error"⟩

/-- The collection after the role of the account `oid` was set to `role` and
saved, as `scripts/makeAdmin.js` does with the role `admin`. -/
def setRole (users : List User) (oid : ObjectId) (role : String) : List User :=
  users.map (fun u => if u._id == oid then { u with role := role } else u)

/-- An atom of a regular expression: a character class, alone or under `+`. -/
inductive Atom where
  | one (cls : Char → Bool)
  | plus (cls : Char → Bool)

/-- `RegExp.prototype.test` for a pattern `^a₁a₂…aₙ$` without flags: whether
the whole text matches the sequence of atoms, by backtracking. -/
def matchAtoms : List Char → List Atom → Bool
  | [], [] => true
  | [], _ :: _ => false
  | _ :: _, [] => false
  | c :: cs, .one p :: rest => p c && matchAtoms cs rest
  | c :: cs, .plus p :: rest => p c && (matchAtoms cs (.plus p :: rest) || matchAtoms cs rest)

/-- The pattern `/^\S+@\S+\.\S+$/` of the `email` paths. -/
def emailPattern : List Atom :=
  [.plus (fun c => !isWhiteSpace c), .one (fun c => c == '@'),
    .plus (fun c => !isWhiteSpace c), .one (fun c => c == '.'),
    .plus (fun c => !isWhiteSpace c)]

/-- The validators of `models/Contact.js` on the members given to
`Contact.create`, after the `trim` setters of `name` and `subject`: the failing
paths with their messages. -/
def contactFailures (b : Body) : List (String × String) :=
  (match b.name.map trim with
    | none => [("name", "Name is required")]
    | some n => if n = "" then [("name", "Name is required")] else [])
  ++ (match b.email with
    | none => [("email", "Email is required")]
    | some e =>
      if e = "" then [("email", "Email is required")]
      else if matchAtoms e.data emailPattern then []
      else [("email", "Please provide a valid email")])
  ++ (match b.subject.map trim with
    | none => [("subject", "Subject is required")]
    | some t => if t = "" then [("subject", "Subject is required")] else [])
  ++ (match b.message with
    | none => [("message", "Message is required")]
    | some m =>
      if m = "" then [("message", "Message is required")]
      else if jsLength m < 10 then [("message", "Message must be at least 10 characters")]
      else [])

/-- The call `Contact.create({name, email, subject, message})`. -/
def Contact.create (L : Lib) (contacts : List Contact) (b : Body) :
    Except String (Contact × List Contact) :=
  match contactFailures b with
  | f :: fs => .error (L.validationMessage "Contact" (f :: fs))
  | [] =>
    let contact : Contact :=
      { _id := L.newObjectId (contacts.map Contact._id),
        name := trim (b.name.getD ""),
        email := b.email.getD "",
        subject := trim (b.subject.getD ""),
        message := b.message.getD "",
        status := "new" }
    .ok (contact, contacts ++ [contact])

/-- The handler `submitContact` of `controllers/contactController.js`. -/
def submitContact (L : Lib) : Layer := fun s =>
  match Contact.create L s.contacts s.req.body with
  | .error message => s.json 401 false message
  | .ok (_, contacts) =>
    ({ s with contacts := contacts }).json 201 true
      "Message sent successfully well get back to you soon. "

/-- The functions of `bcryptjs` that `models/User.js` calls: `hash plain rounds
salt` is `bcrypt.hash(plain, rounds)` when it draws the salt `salt`, `compare`
is `bcrypt.compare` on two strings, and `illegalArguments` is the `message` of
the error both raise for an argument that is not a string. -/
structure Bcrypt where
  hash : String → Nat → String → String
  compare : String → String → Bool
  illegalArguments : String

/-- A `User` document in memory: its paths, the path `password` (absent when it
was not selected or not given) and the paths Mongoose tracks as modified. -/
structure UserDoc where
  user : User
  password : Option String
  modified : List String
deriving DecidableEq

/-- The method `isModified(path)` of a document. -/
def UserDoc.isModified (d : UserDoc) (path : String) : Bool := d.modified.contains path

/-- The hook `userSchema.pre("save", ...)` of `models/User.js`. -/
def UserDoc.preSave (B : Bcrypt) (salt : String) (d : UserDoc) : Except String UserDoc :=
  if !d.isModified "password" then .ok d
  else
    match d.password with
    | none => .error B.illegalArguments
    | some plain => .ok { d with password := some (B.hash plain 12 salt) }

/-- The method `comparePassword` of `models/User.js`. -/
def UserDoc.comparePassword (B : Bcrypt) (d : UserDoc) (candidatePassword : Option String) :
    Except String Bool :=
  match candidatePassword, d.password with
  | some candidate, some stored => .ok (B.compare candidate stored)
  | _, _ => .error B.illegalArguments

/-- The setters of the path `email` of `models/User.js`: `trim`, then
`lowercase`. -/
def userEmailSet (L : Lib) (v : String) : String := L.toLowerCase (trim v)

/-- The validators of `models/User.js` on the paths `name`, `email` and
`password` of a new document, after the setters: the failing paths with their
messages. -/
def userFailures (name email password : Option String) : List (String × String) :=
  (match name with
    | none => [("name", "Name is required")]
    | some n => if n = "" then [("name", "Name is required")] else [])
  ++ (match email with
    | none => [("email", "Email is required")]
    | some e =>
      if e = "" then [("email", "Email is required")]
      else if matchAtoms e.data emailPattern then []
      else [("email", "Please provide a valid email")])
  ++ (match password with
    | none => [("password", "Password is required")]
    | some p =>
      if p = "" then [("password", "Password is required")]
      else if jsLength p < 6 then [("password", "Password must be at least 6 characters")]
      else [])

/-- The call `User.create({name, email, password})` against the stored
documents: setters and defaults, validation, the pre-save hook, then the
insert, which the unique index on `email` rejects when a stored document has
the same email. -/
def User.create (L : Lib) (B : Bcrypt) (salt : String) (stored : List UserDoc)
    (name email password : Option String) : Except String (UserDoc × List UserDoc) :=
  let name := name.map trim
  let email := email.map (userEmailSet L)
  match userFailures name email password with
  | f :: fs => .error (L.validationMessage "User" (f :: fs))
  | [] =>
    let doc : UserDoc :=
      { user :=
          { _id := L.newObjectId (stored.map (fun x => x.user._id)),
            name := name.getD "",
            email := email.getD "",
            bio := "",
            avatar := "/images/default-avatar.png",
            role := "user" },
        password := password,
        modified := ["name", "email", "password"] }
    match doc.preSave B salt with
    | .error message => .error message
    | .ok saved =>
      if stored.any (fun x => x.user.email == saved.user.email) then
        .error (L.duplicateKeyMessage "email" saved.user.email)
      else .ok (saved, stored ++ [saved])

/-- The effect of `res.status(status).json(body)` for a body with further
members. -/
def State.sendWith (s : State) (r : Response) (p : Payload) : State :=
  { s with sent := s.sent ++ [r], payloads := s.payloads ++ [p] }

/-- `document.save()` for a post: the stored document with its `_id` is
replaced. Stored posts satisfy the validators of the schema, which every write
path runs, and `likes` and `likesCount` carry none. -/
def Post.save (posts : List Post) (post : Post) : List Post :=
  posts.map (fun q => if q._id == post._id then post else q)

/-- The handler `likePost` of `controllers/postController.js`. -/
def likePost (L : Lib) : Layer := fun s =>
  match s.req.user with
  | none => s.json 500 false L.typeErrorMessage
  | some user =>
    let userId := user.id
    match findById L Post._id s.posts (some s.req.id) with
    | .error _ => s.json 500 false (L.castErrorMessage s.req.id)
    | .ok none => s.json 404 false "Post not found"
    | .ok (some post) =>
      if post.likes.contains userId then s.json 400 false "you already liked post"
      else
        let likes := post.likes ++ [userId]
        let post : Post := { post with likes := likes, likesCount := likes.length }
        ({ s with posts := Post.save s.posts post }).sendWith
          ⟨200, true, "Post liked successfully"⟩ { likesCount := some post.likesCount }

/-- The handler `unlikePost` of `controllers/postController.js`. The assignment
`post.likes.count = post.likes.length` sets a property of the array, which is
not a path of the document, so `save` does not store it. -/
def unlikePost (L : Lib) : Layer := fun s =>
  match s.req.user with
  | none => s.json 500 false L.typeErrorMessage
  | some user =>
    let userId := user.id
    match findById L Post._id s.posts (some s.req.id) with
    | .error _ => s.json 500 false (L.castErrorMessage s.req.id)
    | .ok none => s.json 404 false "Post not found"
    | .ok (some post) =>
      if !post.likes.contains userId then s.json 400 false "you haven't liked this post"
      else
        let post : Post := { post with likes := post.likes.filter (fun like => like != userId) }
        ({ s with posts := Post.save s.posts post }).sendWith
          ⟨200, true, "Post unliked successfully"⟩ { likesCount := some post.likesCount }

/-- The `length` of the function `getAllMessages`: the number of its
parameters, `req` and `res`. -/
def getAllMessages_length : Nat := 2

/-- The handler `getAllMessages` of `controllers/contactController.js`; the
stored messages are kept oldest first, so `sort({createdAt: -1})` reverses
them. -/
def getAllMessages : Layer := fun s =>
  let messages := s.contacts.reverse
  s.sendWith ⟨200, some true, none⟩
    { count := some getAllMessages_length, items := some messages.length }

/-- The handler `getAllComments` of `controllers/commentController.js`. -/
def getAllComments : Layer := fun s =>
  let comments := s.comments.reverse
  s.sendWith ⟨200, some true, none⟩
    { count := some comments.length, items := some comments.length }

/-- The handler `deleteMessage` of `controllers/contactController.js`. -/
def deleteMessage (L : Lib) : Layer := fun s =>
  match L.castObjectId s.req.id with
  | none => s.json 500 false (L.castErrorMessage s.req.id)
  | some oid =>
    match s.contacts.find? (fun c => c._id == oid) with
    | none => s.json 404 false "Message not found"
    | some _ =>
      ({ s with contacts := s.contacts.eraseP (fun c => c._id == oid) }).json 200 true
        "Message deleted successfully"

/-- The router of `routes/contactRoutes.js`. -/
def contactRoutes (L : Lib) (env : ProcessEnv) : List Route :=
  [ ⟨"POST", "/", [("submitContact", submitContact L)]⟩,
    ⟨"GET", "/", [("protect", protect L env), ("getAllMessages", getAllMessages)]⟩,
    ⟨"PUT", "/:id/read", [("protect", protect L env), ("markAsRead", markAsRead L)]⟩,
    ⟨"DELETE", "/:id", [("protect", protect L env), ("deleteMessage", deleteMessage L)]⟩ ]

/-! ## The client -/

/-- The constant `categories` of `pages/CreatePost.jsx`. -/
def CreatePost.categories : List String :=
  ["Technology", "React", "CSS", "JavaScript", "Node.js", "MongoDB", "Other"]

/-- The values of the options of the category `select` of `pages/CreatePost.jsx`:
the placeholder, then the categories. -/
def CreatePost.categoryOptions : List String := "" :: CreatePost.categories

/-- The check of `category` in `validateForm` of `pages/CreatePost.jsx`. -/
def CreatePost.categoryError (category : String) : Option String :=
  if category = "" then some "Please select a category" else none

/-- The request interceptor of `services/api.js`: the `Authorization` header it
sets for the item `token` of localStorage, unset (`none`) when the item is
missing or empty. -/
def requestInterceptor (token : Option String) : Option String :=
  match token with
  | none => none
  | some t => if t ≠ "" then some ("Bearer " ++ t) else none

/-- The members `type` and `size` of a browser `File`. -/
structure File where
  type : String
  size : Nat
deriving DecidableEq

/-- The value `{valid, error}` that `validateImage` returns. -/
structure ImageValidation where
  valid : Bool
  error : Option String
deriving DecidableEq

/-- The function `validateImage` of `services/uploadService.js`. -/
def validateImage (file : Option File) : ImageValidation :=
  let maxSize := 5 * 1024 * 1024
  let allowedTypes := ["image/jpeg", "image/jpg", "image/png", "image/gif", "image/webp"]
  match file with
  | none => ⟨false, some "No file selected"⟩
  | some file =>
    if !allowedTypes.contains file.type then
      ⟨false, some "Invalid file type. Only JPG, PNG, GIF, and WebP are allowed."⟩
    else if file.size > maxSize then
      ⟨false, some "File size too large. Maximum size is 5MB."⟩
    else ⟨true, none⟩

/-- The `fileFilter` of the multer instance of `middleware/upload.js`: whether
the file is accepted. -/
def fileFilter (mimetype : String) : Bool := startsWith mimetype "image/"

/-- The limit `fileSize` of the multer instance of `middleware/upload.js`. -/
def fileSizeLimit : Nat := 10 * 1024 * 1024

/-- Whether a prefix of the text matches the sequence of atoms. -/
def matchPrefixAtoms : List Char → List Atom → Bool
  | _, [] => true
  | [], _ :: _ => false
  | c :: cs, .one p :: rest => p c && matchPrefixAtoms cs rest
  | c :: cs, .plus p :: rest =>
    p c && (matchPrefixAtoms cs (.plus p :: rest) || matchPrefixAtoms cs rest)

/-- `RegExp.prototype.test` for a pattern `a₁a₂…aₙ` without anchors and flags:
whether some part of the text matches the sequence of atoms. -/
def testAtoms : List Char → List Atom → Bool
  | [], atoms => matchPrefixAtoms [] atoms
  | c :: cs, atoms => matchPrefixAtoms (c :: cs) atoms || testAtoms cs atoms

/-- The check of `email` in `validateForm` of `pages/RegisterPage.jsx`, with the
pattern `/\S+@\S+\.\S+/`. -/
def RegisterPage.emailError (email : String) : Option String :=
  if email = "" then some "Email is required"
  else if !testAtoms email.data emailPattern then some "Email is invalid"
  else none

/-- The check of `email` in `validateForm` of `pages/LoginPage.jsx`, with the
pattern `/\S+@\S+\.\S+/`. -/
def LoginPage.emailError (email : String) : Option String :=
  if email = "" then some "Email is required"
  else if !testAtoms email.data emailPattern then some "Email is invalid"
  else none

/-- The items of the browser's localStorage that the auth store uses; `full`
when `setItem` throws because the quota is exceeded. -/
structure LocalStorage where
  token : Option String
  user : Option String
  full : Bool := false
deriving DecidableEq

/-- The state of `useAuthStore` of `store/authStore.js`. A value that is `null`
or `undefined` is `none`; the user object is kept as its JSON text. -/
structure AuthState where
  user : Option String
  token : Option String
  isAuthenticated : Bool
  loading : Bool
  error : Option String
deriving DecidableEq

/-- The members of a response body that the auth store reads. -/
structure ResponseBody where
  message : Option String
  token : Option String
  user : Option String
deriving DecidableEq

/-- What `fetch` and `response.json()` give an action of the auth store:
`fetch` rejects with an error, or resolves to a response with its flag `ok`
and either the parsed body or the message of the error `response.json()`
throws. -/
inductive FetchResult where
  | rejected (message : String)
  | response (ok : Bool) (body : Except String ResponseBody)

/-- The value of `!!v` for a string, `null` or `undefined`. -/
def truthy (v : Option String) : Bool :=
  match v with
  | none => false
  | some t => t ≠ ""

/-- The value of `a || b` for strings, `a` possibly `undefined`. -/
def orElse (a : Option String) (b : String) : String :=
  match a with
  | none => b
  | some t => if t ≠ "" then t else b

/-- The helper `getCurrentUser` of `store/authStore.js`; `jsonValid` tells
whether `JSON.parse` accepts a text. Returns the user and the storage, from
which a text that does not parse is removed. -/
def getCurrentUser (jsonValid : String → Bool) (ls : LocalStorage) :
    Option String × LocalStorage :=
  match ls.user with
  | none => (none, ls)
  | some userStr =>
    if userStr = "" ∨ userStr = "undefined" ∨ userStr = "null" then (none, ls)
    else if jsonValid userStr then (some userStr, ls)
    else (none, { ls with user := none })

/-- The helper `getToken` of `store/authStore.js`. -/
def getToken (ls : LocalStorage) : Option String :=
  match ls.token with
  | none => none
  | some token =>
    if token = "" ∨ token = "undefined" ∨ token = "null" then none else some token

/-- The helper `isAuthenticated` of `store/authStore.js`. -/
def isAuthenticated (ls : LocalStorage) : Bool := truthy (getToken ls)

/-- The initial state of `useAuthStore`. -/
def AuthState.init (jsonValid : String → Bool) (ls : LocalStorage) : AuthState × LocalStorage :=
  let r := getCurrentUser jsonValid ls
  ({ user := r.1, token := getToken r.2, isAuthenticated := BlogApp.isAuthenticated r.2,
     loading := false, error := none }, r.2)

/-- The body shared by the actions `login` and `register` of the auth store,
which differ in the request they send and in the message they fall back to. -/
def authenticate (fallback : String) (st : AuthState) (ls : LocalStorage) (result : FetchResult) :
    AuthState × LocalStorage :=
  let st := { st with loading := true, error := none }
  match result with
  | .rejected message =>
    ({ st with loading := false, error := some (orElse (some message) fallback) }, ls)
  | .response _ (.error message) =>
    ({ st with loading := false, error := some (orElse (some message) fallback) }, ls)
  | .response false (.ok errorData) =>
    ({ st with
        loading := false,
        error := some (orElse (some (orElse errorData.message fallback)) fallback) }, ls)
  | .response true (.ok data) =>
    let ls :=
      if ls.full then ls
      else { ls with token := some (data.token.getD "undefined"),
                     user := some (data.user.getD "undefined") }
    ({ user := data.user, token := data.token, isAuthenticated := true, loading := false,
       error := none }, ls)

/-- The action `login` of the auth store. -/
def login (st : AuthState) (ls : LocalStorage) (result : FetchResult) :
    AuthState × LocalStorage :=
  authenticate "Login failed" st ls result

/-- The action `register` of the auth store. -/
def register (st : AuthState) (ls : LocalStorage) (result : FetchResult) :
    AuthState × LocalStorage :=
  authenticate "Registration failed" st ls result

/-- The action `logout` of the auth store. -/
def logout (st : AuthState) (ls : LocalStorage) : AuthState × LocalStorage :=
  ({ st with user := none, token := none, isAuthenticated := false, error := none },
    { ls with token := none, user := none })

/-- The action `updateUser` of the auth store; `merge` is the object spread of
the stored user and the new data, as JSON text. -/
def updateUser (merge : Option String → String → String) (st : AuthState) (ls : LocalStorage)
    (userData : String) : AuthState × LocalStorage :=
  let updatedUser := merge st.user userData
  ({ st with user := some updatedUser },
    if ls.full then ls else { ls with user := some updatedUser })

/-- The action `clearError` of the auth store. -/
def clearError (st : AuthState) : AuthState := { st with error := none }

/-- The action `checkAuth` of the auth store. -/
def checkAuth (jsonValid : String → Bool) (st : AuthState) (ls : LocalStorage) :
    AuthState × LocalStorage :=
  let token := getToken ls
  let r := getCurrentUser jsonValid ls
  ({ st with user := r.1, token := token, isAuthenticated := truthy token }, r.2)

/-! ## Fixtures

A small concrete library, store and request on which the statements below are
evaluated. -/

/-- Lower case for the letters `A` to `Z`; any other character is kept. -/
def lowerChar (c : Char) : Char :=
  match c with
  | 'A' => 'a' | 'B' => 'b' | 'C' => 'c' | 'D' => 'd' | 'E' => 'e' | 'F' => 'f' | 'G' => 'g'
  | 'H' => 'h' | 'I' => 'i' | 'J' => 'j' | 'K' => 'k' | 'L' => 'l' | 'M' => 'm' | 'N' => 'n'
  | 'O' => 'o' | 'P' => 'p' | 'Q' => 'q' | 'R' => 'r' | 'S' => 's' | 'T' => 't' | 'U' => 'u'
  | 'V' => 'v' | 'W' => 'w' | 'X' => 'x' | 'Y' => 'y' | 'Z' => 'z'
  | _ => c

/-- A verifier that accepts `tok.ann` and `tok.bob` under the key `k1`, and
`tok.gone` (for an id that has no account), accepts `tok.dflt` under the key
written in `auth.js`, and reports `tok.old` as expired. -/
def demoLib : Lib where
  jwtVerify token secret :=
    if token = "tok.ann" ∧ secret = "k1" then .ok ⟨some "a1"⟩
    else if token = "tok.bob" ∧ secret = "k1" then .ok ⟨some "b2"⟩
    else if token = "tok.gone" ∧ secret = "k1" then .ok ⟨some "z9"⟩
    else if token = "tok.dflt" ∧ secret = "your-secret-key-change-this" then .ok ⟨some "a1"⟩
    else if token = "tok.old" then .error .TokenExpiredError
    else .error .JsonWebTokenError
  castObjectId v := if v.length = 2 then some v else none
  castErrorMessage v := "Cast to ObjectId failed for value " ++ v
  typeErrorMessage := "Cannot read properties of undefined"
  validationMessage model failures :=
    model ++ " validation failed: "
      ++ ", ".intercalate (failures.map (fun f => f.1 ++ ": " ++ f.2))
  updateValidationMessage failures :=
    "Validation failed: " ++ ", ".intercalate (failures.map (fun f => f.1 ++ ": " ++ f.2))
  enumMessage path value := value ++ " is not a valid enum value for path " ++ path
  newObjectId ids := ⟨List.replicate (ids.length + 2) 'n'⟩
  toLowerCase v := ⟨v.data.map lowerChar⟩
  duplicateKeyMessage path value := "E11000 duplicate key error: " ++ path ++ " " ++ value

def demoEnv : ProcessEnv := ⟨some "k1"⟩

def ann : User := ⟨"a1", "Ann", "ann@x.com", "", "/images/default-avatar.png", "user"⟩

def bob : User := ⟨"b2", "Bob", "bob@x.com", "", "/images/default-avatar.png", "admin"⟩

def cat : User := ⟨"c3", "Cat", "cat@x.com", "", "/images/default-avatar.png", "user"⟩

def annPost : Post := ⟨"p1", "Hello", "A first post.", "a1", "Other", [], true, 0, "", [], 0⟩

def catPost : Post := ⟨"p2", "Styles", "On style sheets.", "c3", "CSS", [], true, 3, "", [], 0⟩

/-- A fresh exchange over the demo store for a request with the given
`Authorization` header and `:id` parameter. -/
def demoState (authorization : Option String) (id : String) : State :=
  { users := [ann, bob, cat], posts := [annPost, catPost],
    req := { authorization := authorization, id := id, user := none }, sent := [], nextCalls := 0, verified := [] }

/-- A handler that only reports success; used to observe whether a stack
reaches its last layer. -/
def probe : Layer := fun s => s.json 200 true "ok"

def demoController : AuthController :=
  ⟨probe, probe, probe, probe, probe, probe, probe, probe, probe, probe⟩

/-- The registration `router.get("/admin/stats", protect, isAdmin, getAdminStats)`
over the demo library and controller. -/
def demoStatsRoute : Route :=
  ⟨"GET", "/admin/stats",
    [("protect", protect demoLib demoEnv), ("isAdmin", isAdmin),
      ("getAdminStats", demoController.getAdminStats)]⟩

def annComment : Comment := ⟨"m1", "Nice post.", "a1", "p2"⟩

def catComment : Comment := ⟨"m2", "Thanks.", "c3", "p1"⟩

def danContact : Contact :=
  ⟨"q1", "Dan", "dan@x.com", "Hello", "A message that is long enough.", "new"⟩

/-- A fresh exchange over the demo store, comments and contact messages
included, for a request with the given header, `:id` parameter and body. -/
def demoRequest (authorization : Option String) (id : String) (body : Body) : State :=
  { users := [ann, bob, cat], posts := [annPost, catPost],
    comments := [annComment, catComment], contacts := [danContact],
    req := { authorization := authorization, id := id, user := none, body := body },
    sent := [], nextCalls := 0, verified := [] }

/-- The exchange `demoRequest` after `protect` attached `user`. -/
def demoRequestAs (user : User) (id : String) (body : Body) : State :=
  { users := [ann, bob, cat], posts := [annPost, catPost],
    comments := [annComment, catComment], contacts := [danContact],
    req := { authorization := none, id := id, user := some user, body := body },
    sent := [], nextCalls := 0, verified := [] }

/-- A stand-in for `bcryptjs`: the hash is the salt, a `$` and the plaintext,
and `compare` checks the part after the `$`. -/
def demoBcrypt : Bcrypt where
  hash plain _ salt := salt ++ "$" ++ plain
  compare candidate stored := (split '$' stored.data)[1]? == some candidate.data
  illegalArguments := "Illegal arguments"

/-- A document of `ann` whose password was just set to a plaintext. -/
def annDoc : UserDoc := ⟨ann, some "secret1", ["password"]⟩

/-- The document `User.create` stores over the demo library for the name
` Eve `, the address `  Eve@X.com ` and the password `secret1`. -/
def eveDoc : UserDoc :=
  ⟨⟨"nn", "Eve", "eve@x.com", "", "/images/default-avatar.png", "user"⟩, some "s4lt$secret1",
    ["name", "email", "password"]⟩

/-- A post of `cat` that `ann` has liked. -/
def likedPost : Post := ⟨"p3", "Hooks", "On effect hooks.", "c3", "React", [], true, 0, "", ["a1"], 1⟩

/-- The exchange `demoRequestAs` over a store that also holds `likedPost`. -/
def likesRequestAs (user : User) (id : String) : State :=
  { users := [ann, bob, cat], posts := [annPost, catPost, likedPost],
    req := { authorization := none, id := id, user := some user },
    sent := [], nextCalls := 0, verified := [] }

/-- A stand-in for the success of `JSON.parse`. -/
def demoJsonValid : String → Bool := fun text => text != "oops"

/-- The state of a client that has never logged in. -/
def freshAuthState : AuthState := (AuthState.init demoJsonValid ⟨none, none, false⟩).1

/-- The next request on the store an exchange left: made by `user`, for the
`:id` parameter `id`, with nothing written yet. -/
def nextRequestAs (s : State) (user : User) (id : String) : State :=
  { s with
    req := { authorization := none, id := id, user := some user },
    sent := [], nextCalls := 0, verified := [], payloads := [] }

/-! ## Lemmas on the helpers -/

theorem split_of_not_mem (sep : Char) (t : List Char) (h : sep ∉ t) : split sep t = [t] := by
  induction t with
  | nil => rfl
  | cons c cs ih =>
    have hc : c ≠ sep := fun e => h (by simp [e])
    have hcs : sep ∉ cs := fun m => h (List.mem_cons_of_mem _ m)
    simp [split, hc, ih hcs]

theorem split_append_sep (sep : Char) (a b : List Char) (h : sep ∉ a) :
    split sep (a ++ sep :: b) = a :: split sep b := by
  induction a with
  | nil => simp [split]
  | cons c cs ih =>
    have hc : c ≠ sep := fun e => h (by simp [e])
    have hcs : sep ∉ cs := fun m => h (List.mem_cons_of_mem _ m)
    simp [split, hc, ih hcs]

theorem bearerToken_bearer (token : String) (h : ' ' ∉ token.data) :
    bearerToken (some ("Bearer " ++ token)) = some token := by
  have hd : ("Bearer " ++ token).data = "Bearer".data ++ ' ' :: token.data := by
    simp [String.data_append]
  have hne : ("Bearer " ++ token) ≠ "" := by
    intro e
    have := congrArg String.data e
    rw [hd] at this
    simp at this
  have hsw : startsWith ("Bearer " ++ token) "Bearer" = true := by
    simp [startsWith, hd]
  have hsp : split ' ' ("Bearer " ++ token).data = ["Bearer".data, token.data] := by
    rw [hd, split_append_sep _ _ _ (by decide), split_of_not_mem _ _ h]
  show (if ("Bearer " ++ token) ≠ "" ∧ startsWith ("Bearer " ++ token) "Bearer" = true then
      ((split ' ' ("Bearer " ++ token).data)[1]?).map String.mk else none) = some token
  rw [if_pos ⟨hne, hsw⟩, hsp]
  rfl

theorem findById_some {α : Type} (L : Lib) (key : α → ObjectId) (docs : List α)
    (id : Option String) (a : α) (h : findById L key docs id = .ok (some a)) :
    a ∈ docs ∧ ∃ v, id = some v ∧ L.castObjectId v = some (key a) := by
  unfold findById at h
  cases id with
  | none => simp at h
  | some v =>
    cases hc : L.castObjectId v with
    | none => simp [hc] at h
    | some oid =>
      simp only [hc, Except.ok.injEq] at h
      have hm := List.mem_of_find?_eq_some h
      have hp := List.find?_some h
      have he : key a = oid := by simpa using hp
      exact ⟨hm, v, rfl, by rw [hc, he]⟩

theorem findById_not_some {α : Type} (L : Lib) (key : α → ObjectId) (docs : List α)
    (id : Option String)
    (h : ∀ a ∈ docs, ∀ v, id = some v → L.castObjectId v ≠ some (key a)) :
    findById L key docs id = .ok none ∨ ∃ e, findById L key docs id = .error e := by
  cases hf : findById L key docs id with
  | error e => exact Or.inr ⟨e, rfl⟩
  | ok r =>
    cases r with
    | none => exact Or.inl rfl
    | some a =>
      obtain ⟨hm, v, hv, hc⟩ := findById_some L key docs id a hf
      exact absurd hc (h a hm v hv)

/-- The two ways `protect` can end: the header yields a non-empty token that
verifies to the id of an account, which is attached before `next` is called;
or one 401 response is written and nothing else changes but the record of the
tokens verified. -/
theorem protect_cases (L : Lib) (env : ProcessEnv) (s : State) :
    (∃ token d A, bearerToken s.req.authorization = some token ∧ token ≠ ""
        ∧ L.jwtVerify token (jwtSecret env) = .ok d
        ∧ findById L User._id s.users d.id = .ok (some A)
        ∧ protect L env s
            = ({ s with verified := s.verified ++ [token],
                        req := { s.req with user := some A } }).next)
    ∨ ((¬ ∃ token d A, bearerToken s.req.authorization = some token ∧ token ≠ ""
          ∧ L.jwtVerify token (jwtSecret env) = .ok d
          ∧ findById L User._id s.users d.id = .ok (some A))
        ∧ ∃ message vs, protect L env s
            = ({ s with verified := vs }).json 401 false message) := by
  cases hT : bearerToken s.req.authorization with
  | none =>
    refine Or.inr ⟨by simp, "Not authorized. Please login.", s.verified, ?_⟩
    simp [protect, hT]
  | some token =>
    by_cases hE : token = ""
    · refine Or.inr ⟨by simp [hE], "Not authorized. Please login.", s.verified, ?_⟩
      simp [protect, hT, hE]
    · cases hV : L.jwtVerify token (jwtSecret env) with
      | error e =>
        refine Or.inr ⟨by simp [hV], "Not authorized. Invalid token.", s.verified ++ [token], ?_⟩
        simp [protect, hT, hE, hV]
      | ok d =>
        cases hF : findById L User._id s.users d.id with
        | error e =>
          refine Or.inr ⟨by simp [hV, hF], "Not authorized. Invalid token.",
            s.verified ++ [token], ?_⟩
          simp [protect, hT, hE, hV, hF]
        | ok r =>
          cases r with
          | none =>
            refine Or.inr ⟨by simp [hV, hF], "User not found", s.verified ++ [token], ?_⟩
            simp [protect, hT, hE, hV, hF]
          | some A =>
            refine Or.inl ⟨token, d, A, rfl, hE, hV, hF, ?_⟩
            simp [protect, hT, hE, hV, hF]

/-- In a collection whose `_id`s are pairwise distinct, looking up the `_id` of
a stored document finds that document. -/
theorem find?_of_nodup {α : Type} (key : α → ObjectId) (docs : List α) (a : α)
    (hm : a ∈ docs) (hn : (docs.map key).Nodup) :
    docs.find? (fun d => key d == key a) = some a := by
  induction docs with
  | nil => simp at hm
  | cons x xs ih =>
    rw [List.map_cons, List.nodup_cons] at hn
    by_cases hx : x = a
    · subst hx
      simp
    · have hmx : a ∈ xs := by
        rcases List.mem_cons.mp hm with e | e
        · exact absurd e.symm hx
        · exact e
      have hk : key x ≠ key a := fun e => hn.1 (e ▸ List.mem_map_of_mem key hmx)
      rw [List.find?_cons_of_neg _ (by simpa using hk)]
      exact ih hmx hn.2

/-- In a collection whose `_id`s are pairwise distinct, deleting by the `_id` of
a stored document removes that document and nothing else. -/
theorem eraseP_of_nodup {α : Type} [DecidableEq α] (key : α → ObjectId) (docs : List α) (a : α)
    (hm : a ∈ docs) (hn : (docs.map key).Nodup) :
    docs.eraseP (fun d => key d == key a) = docs.filter (fun d => decide (d ≠ a)) := by
  induction docs with
  | nil => simp at hm
  | cons x xs ih =>
    rw [List.map_cons, List.nodup_cons] at hn
    by_cases hx : x = a
    · subst hx
      have hnot : ∀ d ∈ xs, d ≠ x := by
        intro d hd e
        exact hn.1 (e ▸ List.mem_map_of_mem key hd)
      have hf : xs.filter (fun d => !decide (d = x)) = xs := by
        rw [List.filter_eq_self]
        intro d hd
        simpa using hnot d hd
      simp [List.eraseP_cons, hf]
    · have hmx : a ∈ xs := by
        rcases List.mem_cons.mp hm with e | e
        · exact absurd e.symm hx
        · exact e
      have hk : key x ≠ key a := fun e => hn.1 (e ▸ List.mem_map_of_mem key hmx)
      have hk2 : (key x == key a) = false := by simpa using hk
      simp [List.eraseP_cons, hk2, hx, ih hmx hn.2]

/-- After a role change the lookup of the changed account finds it with its
new role. -/
theorem findById_setRole (L : Lib) (users : List User) (id : Option String) (A : User)
    (role : String) (h : findById L User._id users id = .ok (some A)) :
    findById L User._id (setRole users A._id role) id = .ok (some { A with role := role }) := by
  obtain ⟨_, v, hv, hc⟩ := findById_some L User._id users id A h
  subst hv
  simp only [findById, hc, Except.ok.injEq] at h ⊢
  unfold setRole
  rw [List.find?_map]
  have hfun : ((fun d : User => d._id == A._id)
      ∘ fun u : User => if (u._id == A._id) = true then { u with role := role } else u)
      = fun d : User => d._id == A._id := by
    funext u
    by_cases hu : u._id = A._id
    · simp [hu]
    · simp [hu]
  rw [hfun, h]
  simp

/-- A request with the header `Bearer <token>` whose token verifies and
resolves to the account `A` passes `protect` with `A` attached. -/
theorem protect_attaches_account_aux (L : Lib) (env : ProcessEnv) (s : State)
    (token : String) (d : Decoded) (A : User)
    (hH : s.req.authorization = some ("Bearer " ++ token))
    (hE : token ≠ "") (hS : ' ' ∉ token.data)
    (hV : L.jwtVerify token (jwtSecret env) = .ok d)
    (hA : findById L User._id s.users d.id = .ok (some A)) :
    (protect L env s).req.user = some A
    ∧ A ∈ s.users
    ∧ (∃ v, d.id = some v ∧ L.castObjectId v = some A._id)
    ∧ (protect L env s).nextCalls = s.nextCalls + 1
    ∧ (protect L env s).sent = s.sent := by
  have hT : bearerToken s.req.authorization = some token := by
    rw [hH]; exact bearerToken_bearer token hS
  have hp : protect L env s
      = ({ s with verified := s.verified ++ [token],
                  req := { s.req with user := some A } }).next := by
    simp [protect, hT, hE, hV, hA]
  obtain ⟨hm, hv⟩ := findById_some L User._id s.users d.id A hA
  rw [hp]
  exact ⟨rfl, hm, hv, rfl, rfl⟩

theorem matchAtoms_nil (s : List Char) : matchAtoms s [] = true ↔ s = [] := by
  cases s <;> simp [matchAtoms]

theorem matchAtoms_one (p : Char → Bool) (rest : List Atom) (s : List Char) :
    matchAtoms s (.one p :: rest) = true
      ↔ ∃ c b, s = c :: b ∧ p c = true ∧ matchAtoms b rest = true := by
  cases s with
  | nil => simp [matchAtoms]
  | cons c cs =>
    simp only [matchAtoms, Bool.and_eq_true, List.cons.injEq]
    constructor
    · rintro ⟨h1, h2⟩
      exact ⟨c, cs, ⟨rfl, rfl⟩, h1, h2⟩
    · rintro ⟨x, b, ⟨rfl, rfl⟩, h1, h2⟩
      exact ⟨h1, h2⟩

theorem matchAtoms_plus (p : Char → Bool) (rest : List Atom) (s : List Char) :
    matchAtoms s (.plus p :: rest) = true
      ↔ ∃ a b, s = a ++ b ∧ a ≠ [] ∧ (∀ c ∈ a, p c = true) ∧ matchAtoms b rest = true := by
  induction s with
  | nil =>
    constructor
    · intro h
      simp [matchAtoms] at h
    · rintro ⟨a, b, hab, ha, _, _⟩
      cases a with
      | nil => exact absurd rfl ha
      | cons x xs => simp at hab
  | cons c cs ih =>
    have hstep : matchAtoms (c :: cs) (.plus p :: rest)
        = (p c && (matchAtoms cs (.plus p :: rest) || matchAtoms cs rest)) := by
      simp [matchAtoms]
    rw [hstep]
    constructor
    · intro h
      simp only [Bool.and_eq_true, Bool.or_eq_true] at h
      obtain ⟨hc, h2⟩ := h
      rcases h2 with h2 | h2
      · obtain ⟨a, b, hab, _, hall, hm⟩ := ih.mp h2
        refine ⟨c :: a, b, by simp [hab], by simp, ?_, hm⟩
        intro x hx
        rcases List.mem_cons.mp hx with e | e
        · rw [e]; exact hc
        · exact hall x e
      · exact ⟨[c], cs, rfl, by simp, by simpa using hc, h2⟩
    · rintro ⟨a, b, hab, ha, hall, hm⟩
      cases a with
      | nil => exact absurd rfl ha
      | cons x xs =>
        simp only [List.cons_append, List.cons.injEq] at hab
        obtain ⟨hx, hcs⟩ := hab
        subst hx
        simp only [Bool.and_eq_true, Bool.or_eq_true]
        refine ⟨hall c (by simp), ?_⟩
        cases xs with
        | nil =>
          right
          simpa [hcs] using hm
        | cons y ys =>
          left
          exact ih.mpr ⟨y :: ys, b, hcs, by simp, fun z hz => hall z (List.mem_cons_of_mem _ hz), hm⟩

/-- The pattern of the `email` paths in words: the text has no white space and
is a non-empty part, an `@`, a non-empty part, a dot and a non-empty part. -/
theorem matchAtoms_emailPattern (s : List Char) :
    matchAtoms s emailPattern = true
      ↔ (∀ x ∈ s, isWhiteSpace x = false)
        ∧ ∃ a b c, s = a ++ '@' :: (b ++ '.' :: c) ∧ a ≠ [] ∧ b ≠ [] ∧ c ≠ [] := by
  unfold emailPattern
  constructor
  · intro h
    obtain ⟨a, r1, h1, ha, hna, h⟩ := (matchAtoms_plus _ _ _).mp h
    obtain ⟨x1, r2, h2, hx1, h⟩ := (matchAtoms_one _ _ _).mp h
    obtain ⟨b, r3, h3, hb, hnb, h⟩ := (matchAtoms_plus _ _ _).mp h
    obtain ⟨x2, r4, h4, hx2, h⟩ := (matchAtoms_one _ _ _).mp h
    obtain ⟨c, r5, h5, hc, hnc, h⟩ := (matchAtoms_plus _ _ _).mp h
    have h6 := (matchAtoms_nil _).mp h
    have e1 : x1 = '@' := by simpa using hx1
    have e2 : x2 = '.' := by simpa using hx2
    subst h6 e1 e2 h5 h4 h3 h2 h1
    refine ⟨?_, a, b, c, by simp, ha, hb, hc⟩
    intro x hx
    simp only [List.append_nil, List.mem_append, List.mem_cons] at hx
    rcases hx with hx | hx | hx | hx | hx
    · simpa using hna x hx
    · rw [hx]; decide
    · simpa using hnb x hx
    · rw [hx]; decide
    · simpa using hnc x hx
  · rintro ⟨hall, a, b, c, hs, ha, hb, hc⟩
    subst hs
    refine (matchAtoms_plus _ _ _).mpr ⟨a, _, rfl, ha, ?_, ?_⟩
    · intro x hx
      simpa using hall x (by simp [hx])
    refine (matchAtoms_one _ _ _).mpr ⟨'@', _, rfl, by simp, ?_⟩
    refine (matchAtoms_plus _ _ _).mpr ⟨b, _, rfl, hb, ?_, ?_⟩
    · intro x hx
      simpa using hall x (by simp [hx])
    refine (matchAtoms_one _ _ _).mpr ⟨'.', _, rfl, by simp, ?_⟩
    refine (matchAtoms_plus _ _ _).mpr ⟨c, [], by simp, hc, ?_, by simp [matchAtoms]⟩
    intro x hx
    simpa using hall x (by simp [hx])

theorem trimChars_eq (l : List Char) :
    trimChars l = List.rdropWhile isWhiteSpace (l.dropWhile isWhiteSpace) := rfl

theorem dropWhile_trimChars (l : List Char) :
    (trimChars l).dropWhile isWhiteSpace = trimChars l := by
  rw [trimChars_eq]
  obtain ⟨k, hk⟩ := List.rdropWhile_prefix (p := isWhiteSpace) (l := l.dropWhile isWhiteSpace)
  cases ht : List.rdropWhile isWhiteSpace (l.dropWhile isWhiteSpace) with
  | nil => simp
  | cons x t =>
    rw [ht] at hk
    have hx : isWhiteSpace x = false := by
      have h := List.head?_dropWhile_not isWhiteSpace l
      rw [← hk] at h
      simpa using h
    simp [hx]

theorem trimChars_idem (l : List Char) : trimChars (trimChars l) = trimChars l := by
  rw [trimChars_eq (trimChars l), dropWhile_trimChars, trimChars_eq, List.rdropWhile_idempotent]

theorem rdropWhile_append_of_pos (p : Char → Bool) (l w : List Char) (h : ∀ x ∈ w, p x = true) :
    List.rdropWhile p (l ++ w) = List.rdropWhile p l := by
  unfold List.rdropWhile
  rw [List.reverse_append, List.dropWhile_append_of_pos]
  intro a ha
  exact h a (List.mem_reverse.mp ha)

/-- White space around a text does not change what `trim` returns. -/
theorem trimChars_surround (w1 l w2 : List Char) (h1 : ∀ x ∈ w1, isWhiteSpace x = true)
    (h2 : ∀ x ∈ w2, isWhiteSpace x = true) :
    trimChars (w1 ++ l ++ w2) = trimChars l := by
  rw [trimChars_eq, trimChars_eq, List.append_assoc, List.dropWhile_append_of_pos h1,
    List.dropWhile_append]
  by_cases he : (List.dropWhile isWhiteSpace l).isEmpty = true
  · rw [if_pos he]
    have hnil : List.dropWhile isWhiteSpace l = [] := by simpa using he
    rw [hnil, List.dropWhile_eq_nil_iff.mpr h2]
  · rw [if_neg he]
    exact rdropWhile_append_of_pos _ _ _ h2

theorem trim_idem (s : String) : trim (trim s) = trim s := by
  simp [trim, trimChars_idem]

theorem lowerChar_isWhiteSpace (c : Char) : isWhiteSpace (lowerChar c) = isWhiteSpace c := by
  unfold lowerChar
  split <;> rfl

theorem lowerChar_idem (c : Char) : lowerChar (lowerChar c) = lowerChar c := by
  have h : lowerChar c = c ∨ lowerChar c ∈ "abcdefghijklmnopqrstuvwxyz".data := by
    unfold lowerChar
    split <;> first | (left; rfl) | (right; decide)
  rcases h with h | h
  · rw [h, h]
  · generalize lowerChar c = x at h
    simp only [List.mem_cons, List.mem_singleton, List.not_mem_nil, or_false] at h
    rcases h with rfl | rfl | rfl | rfl | rfl | rfl | rfl | rfl | rfl | rfl | rfl | rfl | rfl
      | rfl | rfl | rfl | rfl | rfl | rfl | rfl | rfl | rfl | rfl | rfl | rfl | rfl <;> rfl

theorem demoLib_toLowerCase_idem (x : String) :
    demoLib.toLowerCase (demoLib.toLowerCase x) = demoLib.toLowerCase x := by
  show (⟨(x.data.map lowerChar).map lowerChar⟩ : String) = ⟨x.data.map lowerChar⟩
  rw [List.map_map]
  congr 1
  apply List.map_congr_left
  intro c _
  exact lowerChar_idem c

theorem demoLib_toLowerCase_trim (x : String) :
    trim (demoLib.toLowerCase x) = demoLib.toLowerCase (trim x) := by
  show (⟨trimChars (x.data.map lowerChar)⟩ : String) = ⟨(trimChars x.data).map lowerChar⟩
  congr 1
  have hfun : isWhiteSpace ∘ lowerChar = isWhiteSpace := by
    funext c
    exact lowerChar_isWhiteSpace c
  unfold trimChars
  rw [List.dropWhile_map, hfun, ← List.map_reverse, List.dropWhile_map, hfun, List.map_reverse]

/-- What a successful `User.create` did. -/
theorem User.create_ok (L : Lib) (B : Bcrypt) (salt : String) (stored : List UserDoc)
    (name email password : Option String) (saved : UserDoc) (stored2 : List UserDoc)
    (h : User.create L B salt stored name email password = .ok (saved, stored2)) :
    userFailures (name.map trim) (email.map (userEmailSet L)) password = []
    ∧ ∃ P, password = some P
      ∧ saved =
          { user :=
              { _id := L.newObjectId (stored.map (fun x => x.user._id)),
                name := (name.map trim).getD "",
                email := (email.map (userEmailSet L)).getD "",
                bio := "",
                avatar := "/images/default-avatar.png",
                role := "user" },
            password := some (B.hash P 12 salt),
            modified := ["name", "email", "password"] }
      ∧ stored.any (fun x => x.user.email == saved.user.email) = false
      ∧ stored2 = stored ++ [saved] := by
  unfold User.create at h
  simp only at h
  cases hf : userFailures (name.map trim) (email.map (userEmailSet L)) password with
  | cons f fs =>
    rw [hf] at h
    simp at h
  | nil =>
    rw [hf] at h
    refine ⟨rfl, ?_⟩
    cases password with
    | none =>
      simp [UserDoc.preSave, UserDoc.isModified] at h
    | some P =>
      have hpre : UserDoc.preSave B salt
          { user :=
              { _id := L.newObjectId (stored.map (fun x => x.user._id)),
                name := (name.map trim).getD "",
                email := (email.map (userEmailSet L)).getD "",
                bio := "",
                avatar := "/images/default-avatar.png",
                role := "user" },
            password := some P,
            modified := ["name", "email", "password"] }
          = .ok
          { user :=
              { _id := L.newObjectId (stored.map (fun x => x.user._id)),
                name := (name.map trim).getD "",
                email := (email.map (userEmailSet L)).getD "",
                bio := "",
                avatar := "/images/default-avatar.png",
                role := "user" },
            password := some (B.hash P 12 salt),
            modified := ["name", "email", "password"] } := by
        simp [UserDoc.preSave, UserDoc.isModified]
      rw [hpre] at h
      simp only at h
      split at h
      · simp at h
      · rename_i hany
        simp only [Except.ok.injEq, Prod.mk.injEq] at h
        obtain ⟨h1, h2⟩ := h
        subst h1
        exact ⟨P, rfl, rfl, by simpa using hany, h2.symm⟩

theorem Post.mem_save (posts : List Post) (P Q : Post) (hm : P ∈ posts) (hq : Q._id = P._id) :
    Q ∈ Post.save posts Q := by
  unfold Post.save
  rw [List.mem_map]
  exact ⟨P, hm, by simp [hq]⟩

theorem Post.of_mem_save (posts : List Post) (Q R : Post) (h : R ∈ Post.save posts Q) :
    R = Q ∨ (R ∈ posts ∧ R._id ≠ Q._id) := by
  unfold Post.save at h
  rw [List.mem_map] at h
  obtain ⟨x, hx, he⟩ := h
  by_cases hid : x._id = Q._id
  · left
    simpa [hid] using he.symm
  · right
    have : x = R := by simpa [hid] using he
    subst this
    exact ⟨hx, hid⟩

/-- In a collection whose `_id`s are pairwise distinct a document is determined
by its `_id`. -/
theorem eq_of_id_eq {α : Type} (key : α → ObjectId) (docs : List α) (a b : α)
    (hn : (docs.map key).Nodup) (ha : a ∈ docs) (hb : b ∈ docs) (h : key a = key b) : a = b := by
  have h1 := find?_of_nodup key docs a ha hn
  have h2 := find?_of_nodup key docs b hb hn
  rw [h] at h1
  rw [h1] at h2
  exact Option.some.inj h2

theorem matchPrefixAtoms_of_match (m t : List Char) (atoms : List Atom)
    (h : matchAtoms m atoms = true) : matchPrefixAtoms (m ++ t) atoms = true := by
  induction m generalizing atoms with
  | nil =>
    cases atoms with
    | nil => cases t <;> rfl
    | cons a as => simp [matchAtoms] at h
  | cons c cs ih =>
    cases atoms with
    | nil => simp [matchAtoms] at h
    | cons a as =>
      cases a with
      | one p =>
        simp only [matchAtoms, Bool.and_eq_true] at h
        simp only [List.cons_append, matchPrefixAtoms, Bool.and_eq_true]
        exact ⟨h.1, ih as h.2⟩
      | plus p =>
        simp only [matchAtoms, Bool.and_eq_true, Bool.or_eq_true] at h
        simp only [List.cons_append, matchPrefixAtoms, Bool.and_eq_true, Bool.or_eq_true]
        refine ⟨h.1, ?_⟩
        rcases h.2 with h2 | h2
        · exact Or.inl (ih _ h2)
        · exact Or.inr (ih _ h2)

theorem testAtoms_of_matchPrefix (w s : List Char) (atoms : List Atom)
    (h : matchPrefixAtoms s atoms = true) : testAtoms (w ++ s) atoms = true := by
  induction w with
  | nil =>
    cases s with
    | nil => simpa [testAtoms] using h
    | cons c cs => simp [testAtoms, h]
  | cons x w ih =>
    simp [testAtoms, ih]

/-- A text that matches a pattern as a whole is found by the pattern without
anchors in any text that contains it. -/
theorem testAtoms_of_match (w1 m w2 : List Char) (atoms : List Atom)
    (h : matchAtoms m atoms = true) : testAtoms (w1 ++ m ++ w2) atoms = true := by
  rw [List.append_assoc]
  exact testAtoms_of_matchPrefix w1 (m ++ w2) atoms (matchPrefixAtoms_of_match m w2 atoms h)

theorem trimChars_surrounded (l : List Char) : ∃ w1 w2, l = w1 ++ trimChars l ++ w2 := by
  obtain ⟨w1, h1⟩ := List.dropWhile_suffix (l := l) isWhiteSpace
  obtain ⟨w2, h2⟩ := List.rdropWhile_prefix isWhiteSpace (l.dropWhile isWhiteSpace)
  refine ⟨w1, w2, ?_⟩
  rw [trimChars_eq, List.append_assoc, h2, h1]

/-- When each character of a text corresponds to a non-empty segment, and a
segment contains `k` only if it is `k` alone and stands for the character `k`,
a split of the joined segments at a `k` comes from a split of the text. -/
theorem forall₂_split_at (R : Char → List Char → Prop) (k : Char)
    (hk : ∀ c seg, R c seg → k ∈ seg → c = k ∧ seg = [k])
    (x : List Char) (segs : List (List Char)) (h : List.Forall₂ R x segs) :
    ∀ a r, segs.flatten = a ++ k :: r →
      ∃ x1 x2 s1 s2, x = x1 ++ k :: x2 ∧ List.Forall₂ R x1 s1 ∧ s1.flatten = a
        ∧ List.Forall₂ R x2 s2 ∧ s2.flatten = r := by
  induction h with
  | nil =>
    intro a r h
    simp at h
  | @cons c seg x' segs' hR hrest ih =>
    intro a r h
    rw [List.flatten_cons, List.append_eq_append_iff] at h
    rcases h with ⟨a', ha, hj⟩ | ⟨c', hseg, hkr⟩
    · obtain ⟨x1, x2, s1, s2, hx, h1, hj1, h2, hj2⟩ := ih a' r hj
      refine ⟨c :: x1, x2, seg :: s1, s2, by simp [hx], List.Forall₂.cons hR h1, ?_, h2, hj2⟩
      simp [hj1, ha]
    · cases c' with
      | nil =>
        simp only [List.append_nil, List.nil_append] at hseg hkr
        obtain ⟨x1, x2, s1, s2, hx, h1, hj1, h2, hj2⟩ := ih [] r (by simpa using hkr.symm)
        refine ⟨c :: x1, x2, seg :: s1, s2, by simp [hx], List.Forall₂.cons hR h1, ?_, h2, hj2⟩
        simp [hj1, hseg]
      | cons y ys =>
        simp only [List.cons_append, List.cons.injEq] at hkr
        obtain ⟨hy, hr⟩ := hkr
        subst hy
        have hmem : k ∈ seg := by rw [hseg]; simp
        obtain ⟨hc, hs⟩ := hk c seg hR hmem
        rw [hs] at hseg
        have ha : a = [] := by
          cases a with
          | nil => rfl
          | cons z zs =>
            have := congrArg List.length hseg
            simp at this
        subst ha
        have hys : ys = [] := by
          simp only [List.nil_append, List.cons.injEq, true_and] at hseg
          exact hseg.symm
        subst hys
        subst hc
        refine ⟨[], x', [], segs', by simp, List.Forall₂.nil, rfl, hrest, ?_⟩
        simpa using hr.symm

/-- When each character of a text corresponds to a non-empty segment of the
same white-space class, and `@` and `.` correspond to themselves only, the text
matches the email pattern if the joined segments do. -/
theorem matchAtoms_of_segments (R : Char → List Char → Prop)
    (hne : ∀ c seg, R c seg → seg ≠ [])
    (hws : ∀ c seg, R c seg → ∀ d ∈ seg, isWhiteSpace d = isWhiteSpace c)
    (hat : ∀ c seg, R c seg → '@' ∈ seg → c = '@' ∧ seg = ['@'])
    (hdot : ∀ c seg, R c seg → '.' ∈ seg → c = '.' ∧ seg = ['.'])
    (x : List Char) (segs : List (List Char)) (h : List.Forall₂ R x segs)
    (hm : matchAtoms segs.flatten emailPattern = true) :
    matchAtoms x emailPattern = true := by
  have hnil : ∀ (y : List Char) (ss : List (List Char)), List.Forall₂ R y ss →
      ss.flatten ≠ [] → y ≠ [] := by
    intro y ss hy hf he
    subst he
    rw [List.forall₂_nil_left_iff] at hy
    subst hy
    exact hf rfl
  have hclean : ∀ (y : List Char) (ss : List (List Char)), List.Forall₂ R y ss →
      (∀ d ∈ ss.flatten, isWhiteSpace d = false) → ∀ c ∈ y, isWhiteSpace c = false := by
    intro y ss hy
    induction hy with
    | nil =>
      intro _ c hc
      simp at hc
    | @cons c seg y' ss' hR _ ih =>
      intro hall z hz
      rcases List.mem_cons.mp hz with e | e
      · subst e
        obtain ⟨d, ds, hd⟩ := List.exists_cons_of_ne_nil (hne z seg hR)
        have hdm : d ∈ seg := by rw [hd]; simp
        rw [← hws z seg hR d hdm]
        exact hall d (by simp [hdm])
      · exact ih (fun d hd => hall d (by
          rw [List.flatten_cons]
          exact List.mem_append_right _ hd)) z e
  obtain ⟨hall, a, b, c, hy, ha, hb, hc⟩ := (matchAtoms_emailPattern _).mp hm
  obtain ⟨x1, x2, s1, s2, hx, h1, hj1, h2, hj2⟩ := forall₂_split_at R '@' hat x segs h a _ hy
  obtain ⟨x3, x4, s3, s4, hx2, h3, hj3, h4, hj4⟩ :=
    forall₂_split_at R '.' hdot x2 s2 h2 b c hj2
  refine (matchAtoms_emailPattern _).mpr ⟨hclean x segs h hall, x1, x3, x4, ?_, ?_, ?_, ?_⟩
  · rw [hx, hx2]
  · exact hnil x1 s1 h1 (by rw [hj1]; exact ha)
  · exact hnil x3 s3 h3 (by rw [hj3]; exact hb)
  · exact hnil x4 s4 h4 (by rw [hj4]; exact hc)

theorem userFailures_email (name password : Option String) (m : String)
    (h : userFailures name (some m) password = []) :
    m ≠ "" ∧ matchAtoms m.data emailPattern = true := by
  unfold userFailures at h
  simp only [List.append_eq_nil] at h
  obtain ⟨⟨_, h2⟩, _⟩ := h
  by_cases he : m = ""
  · simp [he] at h2
  · refine ⟨he, ?_⟩
    by_contra hm
    simp [he, hm] at h2

theorem lowerChar_eq_at (c : Char) (h : lowerChar c = '@') : c = '@' := by
  unfold lowerChar at h
  split at h <;> first | exact h | exact absurd h (by decide)

theorem lowerChar_eq_dot (c : Char) (h : lowerChar c = '.') : c = '.' := by
  unfold lowerChar at h
  split at h <;> first | exact h | exact absurd h (by decide)

theorem demoLib_toLowerCase_segments (s : String) :
    ∃ segs, List.Forall₂ (fun (c : Char) (seg : List Char) =>
          seg ≠ [] ∧ (∀ d ∈ seg, isWhiteSpace d = isWhiteSpace c)
            ∧ ('@' ∈ seg → c = '@' ∧ seg = ['@']) ∧ ('.' ∈ seg → c = '.' ∧ seg = ['.'])) s.data segs
      ∧ (demoLib.toLowerCase s).data = segs.flatten := by
  refine ⟨s.data.map (fun c => [lowerChar c]), ?_, ?_⟩
  · rw [List.forall₂_map_right_iff]
    apply List.forall₂_same.mpr
    intro c _
    refine ⟨by simp, ?_, ?_, ?_⟩
    · intro d hd
      rw [List.mem_singleton] at hd
      rw [hd]
      exact lowerChar_isWhiteSpace c
    · intro h
      rw [List.mem_singleton] at h
      have := lowerChar_eq_at c h.symm
      subst this
      exact ⟨rfl, rfl⟩
    · intro h
      rw [List.mem_singleton] at h
      have := lowerChar_eq_dot c h.symm
      subst this
      exact ⟨rfl, rfl⟩
  · show s.data.map lowerChar = (s.data.map (fun c => [lowerChar c])).flatten
    induction s.data with
    | nil => rfl
    | cons c cs ih => simp [ih]

theorem truthy_iff (v : Option String) : truthy v = true ↔ ∃ t, v = some t ∧ t ≠ "" := by
  cases v with
  | none => simp [truthy]
  | some t => simp [truthy]

/-! ## The authentication gate -/

/-- C1: on a request that carries no Authorization header, `protect` writes
exactly one response, status 401 with `success: false`, does not call `next`,
leaves the request object (so `req.user`) as it was, and in a stack the layer
after `protect` is not run. -/
theorem protect_without_header (L : Lib) (env : ProcessEnv) (s : State)
    (name : String) (handler : Layer) (h : s.req.authorization = none) :
    (protect L env s).sent = s.sent ++ [⟨401, false, "Not authorized. Please login."⟩]
    ∧ (protect L env s).nextCalls = s.nextCalls
    ∧ (protect L env s).req = s.req
    ∧ dispatch [("protect", protect L env), (name, handler)] s
        = (["protect"], protect L env s) := by
  have hp : protect L env s = s.json 401 false "Not authorized. Please login." := by
    simp [protect, bearerToken, h]
  refine ⟨?_, ?_, ?_, ?_⟩
  · rw [hp]; rfl
  · rw [hp]; rfl
  · rw [hp]; rfl
  · have hn : (protect L env s).nextCalls = s.nextCalls := by rw [hp]; rfl
    simp [dispatch, hn]

theorem protect_without_header_witness :
    (demoState none "p1").req.authorization = none
    ∧ (protect demoLib demoEnv (demoState none "p1")).sent
        = (demoState none "p1").sent ++ [⟨401, false, "Not authorized. Please login."⟩]
    ∧ (protect demoLib demoEnv (demoState none "p1")).nextCalls = (demoState none "p1").nextCalls
    ∧ (protect demoLib demoEnv (demoState none "p1")).req = (demoState none "p1").req
    ∧ dispatch [("protect", protect demoLib demoEnv), ("probe", probe)] (demoState none "p1")
        = (["protect"], protect demoLib demoEnv (demoState none "p1")) :=
  ⟨rfl, protect_without_header demoLib demoEnv (demoState none "p1") "probe" probe rfl⟩

/-- C2: when the token read from the Authorization header is rejected by
`jwt.verify` (whatever the error: malformed, wrong signature, expired),
`protect` writes exactly one response, status 401 with `success: false`, does
not call `next` and leaves the request object (so `req.user`) as it was. -/
theorem protect_rejected_token (L : Lib) (env : ProcessEnv) (s : State)
    (token : String) (e : JwtError)
    (hT : bearerToken s.req.authorization = some token)
    (hV : L.jwtVerify token (jwtSecret env) = .error e) :
    (∃ message, (protect L env s).sent = s.sent ++ [⟨401, false, message⟩])
    ∧ (protect L env s).nextCalls = s.nextCalls
    ∧ (protect L env s).req = s.req := by
  by_cases hE : token = ""
  · have hp : protect L env s = s.json 401 false "Not authorized. Please login." := by
      simp [protect, hT, hE]
    rw [hp]
    exact ⟨⟨_, rfl⟩, rfl, rfl⟩
  · have hp : protect L env s = ({ s with verified := s.verified ++ [token] }).json 401 false
        "Not authorized. Invalid token." := by
      simp [protect, hT, hE, hV]
    rw [hp]
    exact ⟨⟨_, rfl⟩, rfl, rfl⟩

theorem protect_rejected_token_witness :
    bearerToken (demoState (some "Bearer tok.old") "p1").req.authorization = some "tok.old"
    ∧ demoLib.jwtVerify "tok.old" (jwtSecret demoEnv) = .error .TokenExpiredError
    ∧ (∃ message, (protect demoLib demoEnv (demoState (some "Bearer tok.old") "p1")).sent
        = (demoState (some "Bearer tok.old") "p1").sent ++ [⟨401, false, message⟩])
    ∧ (protect demoLib demoEnv (demoState (some "Bearer tok.old") "p1")).nextCalls
        = (demoState (some "Bearer tok.old") "p1").nextCalls
    ∧ (protect demoLib demoEnv (demoState (some "Bearer tok.old") "p1")).req
        = (demoState (some "Bearer tok.old") "p1").req :=
  ⟨by decide, by rfl,
    protect_rejected_token demoLib demoEnv (demoState (some "Bearer tok.old") "p1")
      "tok.old" .TokenExpiredError (by decide) (by rfl)⟩

/-- C3: when the token verifies but the decoded id matches the `_id` of no
account in the store, `protect` writes exactly one response, status 401 with
`success: false`, does not call `next` and leaves the request object (so
`req.user`) as it was. -/
theorem protect_unknown_account (L : Lib) (env : ProcessEnv) (s : State)
    (token : String) (d : Decoded)
    (hT : bearerToken s.req.authorization = some token)
    (hV : L.jwtVerify token (jwtSecret env) = .ok d)
    (hN : ∀ A ∈ s.users, ∀ v, d.id = some v → L.castObjectId v ≠ some A._id) :
    (∃ message, (protect L env s).sent = s.sent ++ [⟨401, false, message⟩])
    ∧ (protect L env s).nextCalls = s.nextCalls
    ∧ (protect L env s).req = s.req := by
  by_cases hE : token = ""
  · have hp : protect L env s = s.json 401 false "Not authorized. Please login." := by
      simp [protect, hT, hE]
    rw [hp]
    exact ⟨⟨_, rfl⟩, rfl, rfl⟩
  · rcases findById_not_some L User._id s.users d.id hN with hf | ⟨e, hf⟩
    · have hp : protect L env s = ({ s with verified := s.verified ++ [token] }).json 401 false
          "User not found" := by
        simp [protect, hT, hE, hV, hf]
      rw [hp]
      exact ⟨⟨_, rfl⟩, rfl, rfl⟩
    · have hp : protect L env s = ({ s with verified := s.verified ++ [token] }).json 401 false
          "Not authorized. Invalid token." := by
        simp [protect, hT, hE, hV, hf]
      rw [hp]
      exact ⟨⟨_, rfl⟩, rfl, rfl⟩

theorem protect_unknown_account_witness :
    bearerToken (demoState (some "Bearer tok.gone") "p1").req.authorization = some "tok.gone"
    ∧ demoLib.jwtVerify "tok.gone" (jwtSecret demoEnv) = .ok ⟨some "z9"⟩
    ∧ (∃ message, (protect demoLib demoEnv (demoState (some "Bearer tok.gone") "p1")).sent
        = (demoState (some "Bearer tok.gone") "p1").sent ++ [⟨401, false, message⟩])
    ∧ (protect demoLib demoEnv (demoState (some "Bearer tok.gone") "p1")).nextCalls
        = (demoState (some "Bearer tok.gone") "p1").nextCalls
    ∧ (protect demoLib demoEnv (demoState (some "Bearer tok.gone") "p1")).req
        = (demoState (some "Bearer tok.gone") "p1").req :=
  ⟨by decide, by rfl,
    protect_unknown_account demoLib demoEnv (demoState (some "Bearer tok.gone") "p1")
      "tok.gone" ⟨some "z9"⟩ (by decide) (by rfl) (by decide)⟩

/-- C4: when the header is `Bearer <token>` (the token non-empty and free of
spaces), the token verifies and `User.findById` resolves the decoded id to the
account `A`, `protect` sets `req.user` to `A`, an account of the store whose
`_id` is the decoded id, calls `next` once and writes no response. -/
theorem protect_attaches_account (L : Lib) (env : ProcessEnv) (s : State)
    (token : String) (d : Decoded) (A : User)
    (hH : s.req.authorization = some ("Bearer " ++ token))
    (hE : token ≠ "") (hS : ' ' ∉ token.data)
    (hV : L.jwtVerify token (jwtSecret env) = .ok d)
    (hA : findById L User._id s.users d.id = .ok (some A)) :
    (protect L env s).req.user = some A
    ∧ A ∈ s.users
    ∧ (∃ v, d.id = some v ∧ L.castObjectId v = some A._id)
    ∧ (protect L env s).nextCalls = s.nextCalls + 1
    ∧ (protect L env s).sent = s.sent := by
  have hT : bearerToken s.req.authorization = some token := by
    rw [hH]; exact bearerToken_bearer token hS
  have hp : protect L env s
      = ({ s with verified := s.verified ++ [token],
                  req := { s.req with user := some A } }).next := by
    simp [protect, hT, hE, hV, hA]
  obtain ⟨hm, hv⟩ := findById_some L User._id s.users d.id A hA
  rw [hp]
  exact ⟨rfl, hm, hv, rfl, rfl⟩

theorem protect_attaches_account_witness :
    (demoState (some "Bearer tok.ann") "p1").req.authorization = some ("Bearer " ++ "tok.ann")
    ∧ "tok.ann" ≠ "" ∧ ' ' ∉ "tok.ann".data
    ∧ (protect demoLib demoEnv (demoState (some "Bearer tok.ann") "p1")).req.user = some ann
    ∧ ann ∈ (demoState (some "Bearer tok.ann") "p1").users
    ∧ (∃ v, (⟨some "a1"⟩ : Decoded).id = some v ∧ demoLib.castObjectId v = some ann._id)
    ∧ (protect demoLib demoEnv (demoState (some "Bearer tok.ann") "p1")).nextCalls
        = (demoState (some "Bearer tok.ann") "p1").nextCalls + 1
    ∧ (protect demoLib demoEnv (demoState (some "Bearer tok.ann") "p1")).sent
        = (demoState (some "Bearer tok.ann") "p1").sent :=
  ⟨by decide, by decide, by decide,
    protect_attaches_account demoLib demoEnv (demoState (some "Bearer tok.ann") "p1")
      "tok.ann" ⟨some "a1"⟩ ann (by decide) (by decide) (by decide) (by rfl) (by rfl)⟩

/-- C5, as stated, fails: the header `BearerX tok.ann` is not `Bearer`, a
space and a non-empty token, yet `protect` hands `tok.ann` to `jwt.verify`,
calls `next` and writes no response. -/
theorem protect_malformed_header_counterexample :
    (¬ ∃ t : String, t ≠ "" ∧ "BearerX tok.ann" = "Bearer " ++ t)
    ∧ (protect demoLib demoEnv (demoState (some "BearerX tok.ann") "p1")).verified = ["tok.ann"]
    ∧ (protect demoLib demoEnv (demoState (some "BearerX tok.ann") "p1")).nextCalls = 1
    ∧ (protect demoLib demoEnv (demoState (some "BearerX tok.ann") "p1")).sent = [] := by
  refine ⟨?_, by decide, by decide, by decide⟩
  rintro ⟨t, -, h⟩
  have hd := congrArg String.data h
  simp [String.data_append] at hd

/-- C5, amended: when the Authorization header is absent, or does not start
with `Bearer`, or contains no space, or its first space is its last character
or is directly followed by another space, `protect` writes exactly one
response, status 401 with `success: false` and the message
`Not authorized. Please login.`, hands nothing to `jwt.verify` and does not
call `next`. -/
theorem protect_no_token (L : Lib) (env : ProcessEnv) (s : State)
    (h : s.req.authorization = none
      ∨ ∃ hdr, s.req.authorization = some hdr
          ∧ (startsWith hdr "Bearer" = false
            ∨ ' ' ∉ hdr.data
            ∨ ∃ a b, hdr.data = a ++ ' ' :: b ∧ ' ' ∉ a ∧ (b = [] ∨ ∃ b1, b = ' ' :: b1))) :
    (protect L env s).sent = s.sent ++ [⟨401, false, "Not authorized. Please login."⟩]
    ∧ startsWith "Not authorized. Please login." "Not authorized" = true
    ∧ (protect L env s).verified = s.verified
    ∧ (protect L env s).nextCalls = s.nextCalls := by
  have hp : protect L env s = s.json 401 false "Not authorized. Please login." := by
    rcases h with h | ⟨hdr, h, hs⟩
    · simp [protect, bearerToken, h]
    · rcases hs with hs | hs | ⟨a, b, hab, ha, hb⟩
      · simp [protect, bearerToken, h, hs]
      · have hsp := split_of_not_mem ' ' hdr.data hs
        by_cases hc : hdr ≠ "" ∧ startsWith hdr "Bearer" = true
        · simp [protect, bearerToken, h, hc, hsp]
        · simp [protect, bearerToken, h, hc]
      · have hsp : (split ' ' hdr.data)[1]? = some [] := by
          rw [hab, split_append_sep _ _ _ ha]
          rcases hb with rfl | ⟨b1, rfl⟩ <;> simp [split]
        have hm : String.mk [] = "" := rfl
        by_cases hc : hdr ≠ "" ∧ startsWith hdr "Bearer" = true
        · simp [protect, bearerToken, h, hc, hsp, hm]
        · simp [protect, bearerToken, h, hc]
  rw [hp]
  exact ⟨rfl, by decide, rfl, rfl⟩

theorem protect_no_token_witness :
    (∃ a b, "Bearer  tok.ann".data = a ++ ' ' :: b ∧ ' ' ∉ a ∧ (b = [] ∨ ∃ b1, b = ' ' :: b1))
    ∧ (protect demoLib demoEnv (demoState (some "Bearer  tok.ann") "p1")).sent
        = (demoState (some "Bearer  tok.ann") "p1").sent
            ++ [⟨401, false, "Not authorized. Please login."⟩]
    ∧ startsWith "Not authorized. Please login." "Not authorized" = true
    ∧ (protect demoLib demoEnv (demoState (some "Bearer  tok.ann") "p1")).verified
        = (demoState (some "Bearer  tok.ann") "p1").verified
    ∧ (protect demoLib demoEnv (demoState (some "Bearer  tok.ann") "p1")).nextCalls
        = (demoState (some "Bearer  tok.ann") "p1").nextCalls :=
  ⟨⟨"Bearer".data, " tok.ann".data, rfl, by decide, Or.inr ⟨"tok.ann".data, rfl⟩⟩,
    protect_no_token demoLib demoEnv (demoState (some "Bearer  tok.ann") "p1")
      (Or.inr ⟨"Bearer  tok.ann", rfl,
        Or.inr (Or.inr ⟨"Bearer".data, " tok.ann".data, rfl, by decide,
          Or.inr ⟨"tok.ann".data, rfl⟩⟩)⟩)⟩

/-! ## The authorization gate -/

/-- C6: on a request whose `req.user` is an account, `isAdmin` calls `next`
and writes no response exactly when the role is `admin`; for any other role it
writes one response, status 403 with `success: false`, and does not call
`next`. -/
theorem isAdmin_iff_role_admin (s : State) (A : User) (h : s.req.user = some A) :
    (((isAdmin s).nextCalls = s.nextCalls + 1 ∧ (isAdmin s).sent = s.sent) ↔ A.role = "admin")
    ∧ (A.role ≠ "admin" →
        (isAdmin s).sent
            = s.sent ++ [⟨403, false, "Access denied. Admin privileges required."⟩]
          ∧ (isAdmin s).nextCalls = s.nextCalls) := by
  by_cases hr : A.role = "admin"
  · have hp : isAdmin s = s.next := by simp [isAdmin, h, hr]
    rw [hp]
    exact ⟨⟨fun _ => hr, fun _ => ⟨rfl, rfl⟩⟩, fun hn => absurd hr hn⟩
  · have hp : isAdmin s = s.json 403 false "Access denied. Admin privileges required." := by
      simp [isAdmin, h, hr]
    rw [hp]
    refine ⟨⟨fun hx => ?_, fun hx => absurd hx hr⟩, fun _ => ⟨rfl, rfl⟩⟩
    have h1 : s.nextCalls = s.nextCalls + 1 := hx.1
    omega

theorem isAdmin_iff_role_admin_witness :
    ({ demoState none "p1" with req := { authorization := none, id := "p1", user := some ann } } : State).req.user = some ann
    ∧ (((isAdmin { demoState none "p1" with req := { authorization := none, id := "p1", user := some ann } }).nextCalls
            = ({ demoState none "p1" with req := { authorization := none, id := "p1", user := some ann } } : State).nextCalls + 1
          ∧ (isAdmin { demoState none "p1" with req := { authorization := none, id := "p1", user := some ann } }).sent
            = ({ demoState none "p1" with req := { authorization := none, id := "p1", user := some ann } } : State).sent)
        ↔ ann.role = "admin")
    ∧ (ann.role ≠ "admin" →
        (isAdmin { demoState none "p1" with req := { authorization := none, id := "p1", user := some ann } }).sent
            = ({ demoState none "p1" with req := { authorization := none, id := "p1", user := some ann } } : State).sent
                ++ [⟨403, false, "Access denied. Admin privileges required."⟩]
          ∧ (isAdmin { demoState none "p1" with req := { authorization := none, id := "p1", user := some ann } }).nextCalls
            = ({ demoState none "p1" with req := { authorization := none, id := "p1", user := some ann } } : State).nextCalls) :=
  ⟨rfl, isAdmin_iff_role_admin { demoState none "p1" with req := { authorization := none, id := "p1", user := some ann } } ann rfl⟩

/-- C8, as stated, fails: on a request without `req.user`, `isAdmin` answers
with status 401, a client-error status, not a server-error status. -/
theorem isAdmin_without_account_counterexample :
    (demoState none "p1").req.user = none
    ∧ (isAdmin (demoState none "p1")).sent = [⟨401, false, "Not authorized. Please login."⟩]
    ∧ (∀ r ∈ (isAdmin (demoState none "p1")).sent, r.status < 500)
    ∧ (isAdmin (demoState none "p1")).nextCalls = 0 := by
  decide

/-- C8, amended: on a request without `req.user`, `isAdmin` writes exactly one
response, status 401 with `success: false`, and does not call `next`. -/
theorem isAdmin_without_account (s : State) (h : s.req.user = none) :
    (isAdmin s).sent = s.sent ++ [⟨401, false, "Not authorized. Please login."⟩]
    ∧ (isAdmin s).nextCalls = s.nextCalls := by
  have hp : isAdmin s = s.json 401 false "Not authorized. Please login." := by
    simp [isAdmin, h]
  rw [hp]
  exact ⟨rfl, rfl⟩

theorem isAdmin_without_account_witness :
    (demoState (some "Bearer tok.bob") "p2").req.user = none
    ∧ (isAdmin (demoState (some "Bearer tok.bob") "p2")).sent
        = (demoState (some "Bearer tok.bob") "p2").sent
            ++ [⟨401, false, "Not authorized. Please login."⟩]
    ∧ (isAdmin (demoState (some "Bearer tok.bob") "p2")).nextCalls
        = (demoState (some "Bearer tok.bob") "p2").nextCalls :=
  ⟨rfl, isAdmin_without_account (demoState (some "Bearer tok.bob") "p2") rfl⟩

/-! ## The admin routes -/

/-- What Express does with a stack `protect, isAdmin, handler`. -/
theorem dispatch_admin_stack (L : Lib) (env : ProcessEnv) (name : String) (handler : Layer)
    (hn1 : name ≠ "protect") (hn2 : name ≠ "isAdmin") (s : State) :
    (name ∈ (dispatch [("protect", protect L env), ("isAdmin", isAdmin), (name, handler)] s).1
        ↔ ∃ token d A, bearerToken s.req.authorization = some token ∧ token ≠ ""
            ∧ L.jwtVerify token (jwtSecret env) = .ok d
            ∧ findById L User._id s.users d.id = .ok (some A) ∧ A.role = "admin")
    ∧ ("isAdmin" ∈
          (dispatch [("protect", protect L env), ("isAdmin", isAdmin), (name, handler)] s).1
        ↔ ∃ token d A, bearerToken s.req.authorization = some token ∧ token ≠ ""
            ∧ L.jwtVerify token (jwtSecret env) = .ok d
            ∧ findById L User._id s.users d.id = .ok (some A))
    ∧ (∀ token d A, bearerToken s.req.authorization = some token → token ≠ ""
          → L.jwtVerify token (jwtSecret env) = .ok d
          → findById L User._id s.users d.id = .ok (some A) → A.role = "admin"
          → dispatch [("protect", protect L env), ("isAdmin", isAdmin), (name, handler)] s
            = (["protect", "isAdmin", name],
                handler { s with verified := s.verified ++ [token],
                                 req := { s.req with user := some A },
                                 nextCalls := s.nextCalls + 2 }))
    ∧ (∀ token d A, bearerToken s.req.authorization = some token → token ≠ ""
          → L.jwtVerify token (jwtSecret env) = .ok d
          → findById L User._id s.users d.id = .ok (some A) → A.role ≠ "admin"
          → dispatch [("protect", protect L env), ("isAdmin", isAdmin), (name, handler)] s
            = (["protect", "isAdmin"],
                { s with verified := s.verified ++ [token],
                         req := { s.req with user := some A },
                         nextCalls := s.nextCalls + 1,
                         sent := s.sent
                           ++ [⟨403, false, "Access denied. Admin privileges required."⟩] }))
    ∧ ((¬ ∃ token d A, bearerToken s.req.authorization = some token ∧ token ≠ ""
            ∧ L.jwtVerify token (jwtSecret env) = .ok d
            ∧ findById L User._id s.users d.id = .ok (some A))
        → (dispatch [("protect", protect L env), ("isAdmin", isAdmin), (name, handler)] s).1
            = ["protect"]
          ∧ ∃ message,
            (dispatch [("protect", protect L env), ("isAdmin", isAdmin), (name, handler)] s).2.sent
              = s.sent ++ [⟨401, false, message⟩]) := by
  have hn1s : ¬ "protect" = name := fun e => hn1 e.symm
  have hn2s : ¬ "isAdmin" = name := fun e => hn2 e.symm
  rcases protect_cases L env s with ⟨token, d, A, hT, hE, hV, hF, hp⟩ | ⟨hno, message, vs, hp⟩
  · by_cases hr : A.role = "admin"
    · have hd : dispatch [("protect", protect L env), ("isAdmin", isAdmin), (name, handler)] s
          = (["protect", "isAdmin", name],
              handler { s with verified := s.verified ++ [token],
                               req := { s.req with user := some A },
                               nextCalls := s.nextCalls + 2 }) := by
        simp [dispatch, hp, isAdmin, State.next, hr]
      refine ⟨?_, ?_, ?_, ?_, ?_⟩
      · rw [hd]
        exact ⟨fun _ => ⟨token, d, A, hT, hE, hV, hF, hr⟩, fun _ => by simp⟩
      · rw [hd]
        exact ⟨fun _ => ⟨token, d, A, hT, hE, hV, hF⟩, fun _ => by simp⟩
      · intro token1 d1 A1 hT1 _ hV1 hF1 _
        have e1 : token1 = token := by rw [hT] at hT1; exact (Option.some.inj hT1).symm
        subst e1
        have e2 : d1 = d := by rw [hV] at hV1; exact (Except.ok.inj hV1).symm
        subst e2
        have e3 : A1 = A := by
          rw [hF] at hF1; exact (Option.some.inj (Except.ok.inj hF1)).symm
        subst e3
        exact hd
      · intro token1 d1 A1 hT1 _ hV1 hF1 hr1
        have e1 : token1 = token := by rw [hT] at hT1; exact (Option.some.inj hT1).symm
        subst e1
        have e2 : d1 = d := by rw [hV] at hV1; exact (Except.ok.inj hV1).symm
        subst e2
        have e3 : A1 = A := by
          rw [hF] at hF1; exact (Option.some.inj (Except.ok.inj hF1)).symm
        subst e3
        exact absurd hr hr1
      · intro hno
        exact absurd ⟨token, d, A, hT, hE, hV, hF⟩ hno
    · have hd : dispatch [("protect", protect L env), ("isAdmin", isAdmin), (name, handler)] s
          = (["protect", "isAdmin"],
              { s with verified := s.verified ++ [token],
                       req := { s.req with user := some A },
                       nextCalls := s.nextCalls + 1,
                       sent := s.sent
                         ++ [⟨403, false, "Access denied. Admin privileges required."⟩] }) := by
        simp [dispatch, hp, isAdmin, State.next, State.json, hr]
      refine ⟨?_, ?_, ?_, ?_, ?_⟩
      · rw [hd]
        constructor
        · intro hm
          simp [hn1, hn2] at hm
        · rintro ⟨token1, d1, A1, hT1, _, hV1, hF1, hr1⟩
          have e1 : token1 = token := by rw [hT] at hT1; exact (Option.some.inj hT1).symm
          subst e1
          have e2 : d1 = d := by rw [hV] at hV1; exact (Except.ok.inj hV1).symm
          subst e2
          have e3 : A1 = A := by
            rw [hF] at hF1; exact (Option.some.inj (Except.ok.inj hF1)).symm
          subst e3
          exact absurd hr1 hr
      · rw [hd]
        exact ⟨fun _ => ⟨token, d, A, hT, hE, hV, hF⟩, fun _ => by simp⟩
      · intro token1 d1 A1 hT1 _ hV1 hF1 hr1
        have e1 : token1 = token := by rw [hT] at hT1; exact (Option.some.inj hT1).symm
        subst e1
        have e2 : d1 = d := by rw [hV] at hV1; exact (Except.ok.inj hV1).symm
        subst e2
        have e3 : A1 = A := by
          rw [hF] at hF1; exact (Option.some.inj (Except.ok.inj hF1)).symm
        subst e3
        exact absurd hr1 hr
      · intro token1 d1 A1 hT1 _ hV1 hF1 _
        have e1 : token1 = token := by rw [hT] at hT1; exact (Option.some.inj hT1).symm
        subst e1
        have e2 : d1 = d := by rw [hV] at hV1; exact (Except.ok.inj hV1).symm
        subst e2
        have e3 : A1 = A := by
          rw [hF] at hF1; exact (Option.some.inj (Except.ok.inj hF1)).symm
        subst e3
        exact hd
      · intro hno
        exact absurd ⟨token, d, A, hT, hE, hV, hF⟩ hno
  · have hd : dispatch [("protect", protect L env), ("isAdmin", isAdmin), (name, handler)] s
        = (["protect"], ({ s with verified := vs }).json 401 false message) := by
      simp [dispatch, hp, State.json]
    refine ⟨?_, ?_, ?_, ?_, ?_⟩
    · rw [hd]
      constructor
      · intro hm
        simp [hn1] at hm
      · rintro ⟨token, d, A, hT, hE, hV, hF, _⟩
        exact absurd ⟨token, d, A, hT, hE, hV, hF⟩ hno
    · rw [hd]
      constructor
      · intro hm
        simp at hm
      · intro hx
        exact absurd hx hno
    · intro token d A hT hE hV hF _
      exact absurd ⟨token, d, A, hT, hE, hV, hF⟩ hno
    · intro token d A hT hE hV hF _
      exact absurd ⟨token, d, A, hT, hE, hV, hF⟩ hno
    · intro _
      rw [hd]
      exact ⟨rfl, message, rfl⟩

/-- C7: every route of `authRoutes` whose path starts with `/admin` has the
stack `protect`, `isAdmin`, handler. On any request: the handler runs exactly
when the header yields a token that verifies to the id of an account whose role
is `admin`, and then it receives the request with that account attached;
`isAdmin` runs exactly when `protect` resolved an account; when an account was
resolved whose role is not `admin` the exchange ends after `isAdmin` with one
403 response; and when no account was resolved it ends after `protect` with one
401 response. -/
theorem admin_routes_gate (L : Lib) (env : ProcessEnv) (C : AuthController) (r : Route)
    (s : State) (hr : r ∈ authRoutes L env C) (hp : startsWith r.path "/admin" = true) :
    ∃ name handler,
      r.stack = [("protect", protect L env), ("isAdmin", isAdmin), (name, handler)]
      ∧ name ≠ "protect" ∧ name ≠ "isAdmin"
      ∧ (r.stack.map Prod.fst = ["protect", "isAdmin", name])
      ∧
      (name ∈ (dispatch r.stack s).1
          ↔ ∃ token d A, bearerToken s.req.authorization = some token ∧ token ≠ ""
              ∧ L.jwtVerify token (jwtSecret env) = .ok d
              ∧ findById L User._id s.users d.id = .ok (some A) ∧ A.role = "admin")
      ∧ ("isAdmin" ∈ (dispatch r.stack s).1
          ↔ ∃ token d A, bearerToken s.req.authorization = some token ∧ token ≠ ""
              ∧ L.jwtVerify token (jwtSecret env) = .ok d
              ∧ findById L User._id s.users d.id = .ok (some A))
      ∧ (∀ token d A, bearerToken s.req.authorization = some token → token ≠ ""
            → L.jwtVerify token (jwtSecret env) = .ok d
            → findById L User._id s.users d.id = .ok (some A) → A.role = "admin"
            → dispatch r.stack s
              = (["protect", "isAdmin", name],
                  handler
                    { s with
                      verified := s.verified ++ [token],
                      req := { s.req with user := some A },
                      nextCalls := s.nextCalls + 2 }))
      ∧ (∀ token d A, bearerToken s.req.authorization = some token → token ≠ ""
            → L.jwtVerify token (jwtSecret env) = .ok d
            → findById L User._id s.users d.id = .ok (some A) → A.role ≠ "admin"
            → dispatch r.stack s
              = (["protect", "isAdmin"],
                  { s with
                    verified := s.verified ++ [token],
                    req := { s.req with user := some A },
                    nextCalls := s.nextCalls + 1,
                    sent := s.sent
                      ++ [⟨403, false, "Access denied. Admin privileges required."⟩] }))
      ∧ ((¬ ∃ token d A, bearerToken s.req.authorization = some token ∧ token ≠ ""
              ∧ L.jwtVerify token (jwtSecret env) = .ok d
              ∧ findById L User._id s.users d.id = .ok (some A))
          → (dispatch r.stack s).1 = ["protect"]
            ∧ ∃ message, (dispatch r.stack s).2.sent = s.sent ++ [⟨401, false, message⟩]) := by
  simp only [authRoutes, List.mem_cons, List.mem_singleton, List.not_mem_nil, or_false] at hr
  rcases hr with rfl | rfl | rfl | rfl | rfl | rfl | rfl | rfl | rfl | rfl
  · exact absurd (show startsWith "/register" "/admin" = true from hp) (by decide)
  · exact absurd (show startsWith "/login" "/admin" = true from hp) (by decide)
  · exact absurd (show startsWith "/profile" "/admin" = true from hp) (by decide)
  · exact absurd (show startsWith "/profile" "/admin" = true from hp) (by decide)
  · exact absurd (show startsWith "/password" "/admin" = true from hp) (by decide)
  · exact ⟨"getAdminStats", C.getAdminStats, rfl, by decide, by decide, rfl,
      dispatch_admin_stack L env _ _ (by decide) (by decide) s⟩
  · exact ⟨"getAllUsers", C.getAllUsers, rfl, by decide, by decide, rfl,
      dispatch_admin_stack L env _ _ (by decide) (by decide) s⟩
  · exact ⟨"getUserById", C.getUserById, rfl, by decide, by decide, rfl,
      dispatch_admin_stack L env _ _ (by decide) (by decide) s⟩
  · exact ⟨"deleteUser", C.deleteUser, rfl, by decide, by decide, rfl,
      dispatch_admin_stack L env _ _ (by decide) (by decide) s⟩
  · exact ⟨"updateUserRole", C.updateUserRole, rfl, by decide, by decide, rfl,
      dispatch_admin_stack L env _ _ (by decide) (by decide) s⟩

theorem admin_routes_gate_witness :
    demoStatsRoute ∈ authRoutes demoLib demoEnv demoController
    ∧ startsWith demoStatsRoute.path "/admin" = true
    ∧ ∃ name handler,
      demoStatsRoute.stack
          = [("protect", protect demoLib demoEnv), ("isAdmin", isAdmin), (name, handler)]
      ∧ name ≠ "protect" ∧ name ≠ "isAdmin"
      ∧ (demoStatsRoute.stack.map Prod.fst = ["protect", "isAdmin", name])
      ∧
      (name ∈ (dispatch demoStatsRoute.stack (demoState (some "Bearer tok.bob") "p1")).1
          ↔ ∃ token d A, bearerToken (demoState (some "Bearer tok.bob") "p1").req.authorization = some token ∧ token ≠ ""
              ∧ demoLib.jwtVerify token (jwtSecret demoEnv) = .ok d
              ∧ findById demoLib User._id (demoState (some "Bearer tok.bob") "p1").users d.id = .ok (some A) ∧ A.role = "admin")
      ∧ ("isAdmin" ∈ (dispatch demoStatsRoute.stack (demoState (some "Bearer tok.bob") "p1")).1
          ↔ ∃ token d A, bearerToken (demoState (some "Bearer tok.bob") "p1").req.authorization = some token ∧ token ≠ ""
              ∧ demoLib.jwtVerify token (jwtSecret demoEnv) = .ok d
              ∧ findById demoLib User._id (demoState (some "Bearer tok.bob") "p1").users d.id = .ok (some A))
      ∧ (∀ token d A, bearerToken (demoState (some "Bearer tok.bob") "p1").req.authorization = some token → token ≠ ""
            → demoLib.jwtVerify token (jwtSecret demoEnv) = .ok d
            → findById demoLib User._id (demoState (some "Bearer tok.bob") "p1").users d.id = .ok (some A) → A.role = "admin"
            → dispatch demoStatsRoute.stack (demoState (some "Bearer tok.bob") "p1")
              = (["protect", "isAdmin", name],
                  handler
                    { (demoState (some "Bearer tok.bob") "p1") with
                      verified := (demoState (some "Bearer tok.bob") "p1").verified ++ [token],
                      req := { (demoState (some "Bearer tok.bob") "p1").req with user := some A },
                      nextCalls := (demoState (some "Bearer tok.bob") "p1").nextCalls + 2 }))
      ∧ (∀ token d A, bearerToken (demoState (some "Bearer tok.bob") "p1").req.authorization = some token → token ≠ ""
            → demoLib.jwtVerify token (jwtSecret demoEnv) = .ok d
            → findById demoLib User._id (demoState (some "Bearer tok.bob") "p1").users d.id = .ok (some A) → A.role ≠ "admin"
            → dispatch demoStatsRoute.stack (demoState (some "Bearer tok.bob") "p1")
              = (["protect", "isAdmin"],
                  { (demoState (some "Bearer tok.bob") "p1") with
                    verified := (demoState (some "Bearer tok.bob") "p1").verified ++ [token],
                    req := { (demoState (some "Bearer tok.bob") "p1").req with user := some A },
                    nextCalls := (demoState (some "Bearer tok.bob") "p1").nextCalls + 1,
                    sent := (demoState (some "Bearer tok.bob") "p1").sent
                      ++ [⟨403, false, "Access denied. Admin privileges required."⟩] }))
      ∧ ((¬ ∃ token d A, bearerToken (demoState (some "Bearer tok.bob") "p1").req.authorization = some token ∧ token ≠ ""
              ∧ demoLib.jwtVerify token (jwtSecret demoEnv) = .ok d
              ∧ findById demoLib User._id (demoState (some "Bearer tok.bob") "p1").users d.id = .ok (some A))
          → (dispatch demoStatsRoute.stack (demoState (some "Bearer tok.bob") "p1")).1 = ["protect"]
            ∧ ∃ message, (dispatch demoStatsRoute.stack (demoState (some "Bearer tok.bob") "p1")).2.sent = (demoState (some "Bearer tok.bob") "p1").sent ++ [⟨401, false, message⟩]) :=
  ⟨by simp [authRoutes, demoStatsRoute], by decide,
    admin_routes_gate demoLib demoEnv demoController demoStatsRoute
      (demoState (some "Bearer tok.bob") "p1") (by simp [authRoutes, demoStatsRoute])
      (by decide)⟩

/-! ## The ownership check of `deletePost` -/

/-- C9: when the request names a stored post `P` (the `_id`s of the collection
being pairwise distinct), `req.user` is the account `A`, the post's author is
not `A` and `A` is not an admin, `deletePost` writes exactly one response,
status 403 with `success: false`, and the post collection is unchanged, so `P`
is still stored. -/
theorem deletePost_forbidden (L : Lib) (s : State) (P : Post) (A : User)
    (hn : (s.posts.map Post._id).Nodup) (hm : P ∈ s.posts)
    (hi : L.castObjectId s.req.id = some P._id)
    (hu : s.req.user = some A)
    (ho : P.author ≠ A.id) (hr : A.role ≠ "admin") :
    (deletePost L s).sent = s.sent ++ [⟨403, false, "You can only delete your own posts"⟩]
    ∧ (deletePost L s).posts = s.posts
    ∧ P ∈ (deletePost L s).posts
    ∧ (deletePost L s).nextCalls = s.nextCalls := by
  have hf : findById L Post._id s.posts (some s.req.id) = .ok (some P) := by
    simp [findById, hi, find?_of_nodup Post._id s.posts P hm hn]
  have hp : deletePost L s = s.json 403 false "You can only delete your own posts" := by
    simp [deletePost, hf, hu, ho, hr]
  rw [hp]
  exact ⟨rfl, rfl, hm, rfl⟩

theorem deletePost_forbidden_witness :
    (({ demoState none "p2" with req := { authorization := none, id := "p2", user := some ann } } : State).posts.map Post._id).Nodup
    ∧ catPost ∈ ({ demoState none "p2" with req := { authorization := none, id := "p2", user := some ann } } : State).posts
    ∧ catPost.author ≠ ann.id ∧ ann.role ≠ "admin"
    ∧ (deletePost demoLib { demoState none "p2" with req := { authorization := none, id := "p2", user := some ann } }).sent
        = ({ demoState none "p2" with req := { authorization := none, id := "p2", user := some ann } } : State).sent
            ++ [⟨403, false, "You can only delete your own posts"⟩]
    ∧ (deletePost demoLib { demoState none "p2" with req := { authorization := none, id := "p2", user := some ann } }).posts
        = ({ demoState none "p2" with req := { authorization := none, id := "p2", user := some ann } } : State).posts
    ∧ catPost ∈ (deletePost demoLib { demoState none "p2" with req := { authorization := none, id := "p2", user := some ann } }).posts
    ∧ (deletePost demoLib { demoState none "p2" with req := { authorization := none, id := "p2", user := some ann } }).nextCalls
        = ({ demoState none "p2" with req := { authorization := none, id := "p2", user := some ann } } : State).nextCalls :=
  ⟨by decide, by decide, by decide, by decide,
    deletePost_forbidden demoLib { demoState none "p2" with req := { authorization := none, id := "p2", user := some ann } }
      catPost ann (by decide) (by decide) (by decide) rfl (by decide) (by decide)⟩

/-- C10: when the request names a stored post `P` (the `_id`s of the collection
being pairwise distinct), `req.user` is the account `A`, and `A` is the post's
author or an admin, `deletePost` writes exactly one response, status 200 with
`success: true`; afterwards no stored post has the `_id` of `P`, `P` is not
stored, and the collection is the old one without `P`, every other post as it
was and in the same order. -/
theorem deletePost_allowed (L : Lib) (s : State) (P : Post) (A : User)
    (hn : (s.posts.map Post._id).Nodup) (hm : P ∈ s.posts)
    (hi : L.castObjectId s.req.id = some P._id)
    (hu : s.req.user = some A)
    (ho : P.author = A.id ∨ A.role = "admin") :
    (deletePost L s).sent = s.sent ++ [⟨200, true, "Post deleted successfully"⟩]
    ∧ P ∉ (deletePost L s).posts
    ∧ (∀ Q ∈ (deletePost L s).posts, Q._id ≠ P._id)
    ∧ (deletePost L s).posts = s.posts.filter (fun Q => decide (Q ≠ P))
    ∧ (∀ Q, Q ≠ P → (Q ∈ (deletePost L s).posts ↔ Q ∈ s.posts)) := by
  have hf : findById L Post._id s.posts (some s.req.id) = .ok (some P) := by
    simp [findById, hi, find?_of_nodup Post._id s.posts P hm hn]
  have hd : findByIdAndDelete L Post._id s.posts s.req.id
      = .ok (s.posts.filter (fun Q => decide (Q ≠ P))) := by
    simp only [findByIdAndDelete, hi]
    rw [eraseP_of_nodup Post._id s.posts P hm hn]
  have hc : (!(P.author == A.id) && !(A.role == "admin")) = false := by
    rcases ho with h | h <;> simp [h]
  have hp : deletePost L s
      = ({ s with posts := s.posts.filter (fun Q => decide (Q ≠ P)) }).json 200 true
          "Post deleted successfully" := by
    simp only [deletePost, hf, hu, hd, hc]
    rfl
  rw [hp]
  refine ⟨rfl, ?_, ?_, rfl, ?_⟩
  · show P ∉ s.posts.filter (fun Q => decide (Q ≠ P))
    simp
  · intro Q hQ e
    have hQ1 : Q ∈ s.posts.filter (fun Q => decide (Q ≠ P)) := hQ
    rw [List.mem_filter] at hQ1
    have hQP : Q ≠ P := by simpa using hQ1.2
    have h1 := find?_of_nodup Post._id s.posts Q hQ1.1 hn
    have h2 := find?_of_nodup Post._id s.posts P hm hn
    rw [e] at h1
    rw [h1] at h2
    exact hQP (Option.some.inj h2)
  · intro Q hQ
    show Q ∈ s.posts.filter (fun Q => decide (Q ≠ P)) ↔ Q ∈ s.posts
    simp [List.mem_filter, hQ]

theorem deletePost_allowed_witness :
    (({ demoState none "p2" with req := { authorization := none, id := "p2", user := some bob } } : State).posts.map Post._id).Nodup
    ∧ catPost ∈ ({ demoState none "p2" with req := { authorization := none, id := "p2", user := some bob } } : State).posts
    ∧ (catPost.author = bob.id ∨ bob.role = "admin")
    ∧ (deletePost demoLib { demoState none "p2" with req := { authorization := none, id := "p2", user := some bob } }).sent
        = ({ demoState none "p2" with req := { authorization := none, id := "p2", user := some bob } } : State).sent
            ++ [⟨200, true, "Post deleted successfully"⟩]
    ∧ catPost ∉ (deletePost demoLib { demoState none "p2" with req := { authorization := none, id := "p2", user := some bob } }).posts
    ∧ (∀ Q ∈ (deletePost demoLib { demoState none "p2" with req := { authorization := none, id := "p2", user := some bob } }).posts,
        Q._id ≠ catPost._id)
    ∧ (deletePost demoLib { demoState none "p2" with req := { authorization := none, id := "p2", user := some bob } }).posts
        = ({ demoState none "p2" with req := { authorization := none, id := "p2", user := some bob } } : State).posts.filter
            (fun Q => decide (Q ≠ catPost))
    ∧ (∀ Q, Q ≠ catPost →
        (Q ∈ (deletePost demoLib { demoState none "p2" with req := { authorization := none, id := "p2", user := some bob } }).posts
          ↔ Q ∈ ({ demoState none "p2" with req := { authorization := none, id := "p2", user := some bob } } : State).posts)) :=
  ⟨by decide, by decide, by decide,
    deletePost_allowed demoLib { demoState none "p2" with req := { authorization := none, id := "p2", user := some bob } }
      catPost bob (by decide) (by decide) (by decide) rfl (by decide)⟩

/-! ## The ownership check of `deleteComment` -/

/-- What `deleteComment` does with a stored comment `C` (the `_id`s of the
collection being pairwise distinct) when `req.user` is the account `A`: it
answers 200 exactly when `A` is the author of `C`, and then the collection is
the old one without `C`; otherwise it writes one 403 response and the
collection is unchanged. The role of `A` is not read. -/
theorem deleteComment_author_only (L : Lib) (s : State) (C : Comment) (A : User)
    (hn : (s.comments.map Comment._id).Nodup) (hm : C ∈ s.comments)
    (hi : L.castObjectId s.req.id = some C._id)
    (hu : s.req.user = some A) :
    ((deleteComment L s).sent = s.sent ++ [⟨200, true, "Comment deleted successfully"⟩]
        ↔ C.author = A.id)
    ∧ (C.author = A.id →
        C ∉ (deleteComment L s).comments
        ∧ (deleteComment L s).comments = s.comments.filter (fun Q => decide (Q ≠ C)))
    ∧ (C.author ≠ A.id →
        (deleteComment L s).sent
            = s.sent ++ [⟨403, false, "You can only delete your own comments"⟩]
        ∧ (deleteComment L s).comments = s.comments
        ∧ C ∈ (deleteComment L s).comments) := by
  have hf : findById L Comment._id s.comments (some s.req.id) = .ok (some C) := by
    simp [findById, hi, find?_of_nodup Comment._id s.comments C hm hn]
  by_cases ho : C.author = A.id
  · have hd : findByIdAndDelete L Comment._id s.comments s.req.id
        = .ok (s.comments.filter (fun Q => decide (Q ≠ C))) := by
      simp only [findByIdAndDelete, hi]
      rw [eraseP_of_nodup Comment._id s.comments C hm hn]
    have hp : deleteComment L s
        = ({ s with comments := s.comments.filter (fun Q => decide (Q ≠ C)) }).json 200 true
            "Comment deleted successfully" := by
      simp only [deleteComment, hf, hu, hd, ho]
      simp
    rw [hp]
    refine ⟨⟨fun _ => ho, fun _ => rfl⟩, fun _ => ⟨?_, rfl⟩, fun h => absurd ho h⟩
    show C ∉ s.comments.filter (fun Q => decide (Q ≠ C))
    simp
  · have hp : deleteComment L s
        = s.json 403 false "You can only delete your own comments" := by
      simp [deleteComment, hf, hu, ho]
    rw [hp]
    refine ⟨⟨fun h => ?_, fun h => absurd h ho⟩, fun h => absurd h ho, fun _ => ⟨rfl, rfl, hm⟩⟩
    have h1 : s.sent ++ [(⟨403, false, "You can only delete your own comments"⟩ : Response)]
        = s.sent ++ [⟨200, true, "Comment deleted successfully"⟩] := h
    have h2 := List.append_cancel_left h1
    simp at h2

theorem deleteComment_author_only_witness :
    ((demoRequestAs ann "m1" {}).comments.map Comment._id).Nodup
    ∧ annComment ∈ (demoRequestAs ann "m1" {}).comments
    ∧ ((deleteComment demoLib (demoRequestAs ann "m1" {})).sent
          = (demoRequestAs ann "m1" {}).sent ++ [⟨200, true, "Comment deleted successfully"⟩]
        ↔ annComment.author = ann.id)
    ∧ (annComment.author = ann.id →
        annComment ∉ (deleteComment demoLib (demoRequestAs ann "m1" {})).comments
        ∧ (deleteComment demoLib (demoRequestAs ann "m1" {})).comments
            = (demoRequestAs ann "m1" {}).comments.filter (fun Q => decide (Q ≠ annComment)))
    ∧ (annComment.author ≠ ann.id →
        (deleteComment demoLib (demoRequestAs ann "m1" {})).sent
            = (demoRequestAs ann "m1" {}).sent
                ++ [⟨403, false, "You can only delete your own comments"⟩]
        ∧ (deleteComment demoLib (demoRequestAs ann "m1" {})).comments
            = (demoRequestAs ann "m1" {}).comments
        ∧ annComment ∈ (deleteComment demoLib (demoRequestAs ann "m1" {})).comments) :=
  ⟨by decide, by decide,
    deleteComment_author_only demoLib (demoRequestAs ann "m1" {}) annComment ann
      (by decide) (by decide) (by decide) rfl⟩

/-- C11, the code at a failing input: the administrator `bob`, who is not the
author of the stored comment `annComment`, asks to delete it; `deleteComment`
answers 403 and the comment stays stored. For every library, stored comment
and account that is not the author, whatever its role, the answer is 403 and
the collection is unchanged; the author is answered 200 and the comment is
removed. -/
theorem deleteComment_admin_forbidden :
    bob.role = "admin"
    ∧ annComment ∈ (demoRequestAs bob "m1" {}).comments
    ∧ demoLib.castObjectId (demoRequestAs bob "m1" {}).req.id = some annComment._id
    ∧ annComment.author ≠ bob.id
    ∧ (deleteComment demoLib (demoRequestAs bob "m1" {})).sent
        = [⟨403, false, "You can only delete your own comments"⟩]
    ∧ annComment ∈ (deleteComment demoLib (demoRequestAs bob "m1" {})).comments
    ∧ (∀ (L : Lib) (s : State) (C : Comment) (A : User),
        (s.comments.map Comment._id).Nodup → C ∈ s.comments
        → L.castObjectId s.req.id = some C._id → s.req.user = some A
        → C.author ≠ A.id
        → (deleteComment L s).sent
            = s.sent ++ [⟨403, false, "You can only delete your own comments"⟩]
          ∧ (deleteComment L s).comments = s.comments)
    ∧ (deleteComment demoLib (demoRequestAs ann "m1" {})).sent
        = [⟨200, true, "Comment deleted successfully"⟩]
    ∧ annComment ∉ (deleteComment demoLib (demoRequestAs ann "m1" {})).comments := by
  refine ⟨by decide, by decide, by decide, by decide, by decide, by decide, ?_, by decide,
    by decide⟩
  intro L s C A hn hm hi hu ho
  obtain ⟨h1, h2, _⟩ := (deleteComment_author_only L s C A hn hm hi hu).2.2 ho
  exact ⟨h1, h2⟩

/-! ## `updatePost` -/

/-- C12, the code at a failing input: on the route `protect`, `updatePost`,
the account `ann`, who is neither the author of the stored post `catPost` nor
an admin, sends a new title; both layers run, the answer is 200 and the stored
post carries the new title. For every library and exchange the outcome of
`updatePost` is the same whatever `req.user` is. -/
theorem updatePost_by_non_owner :
    catPost ∈ (demoRequest (some "Bearer tok.ann") "p2" { title := some "Taken over" }).posts
    ∧ catPost.author ≠ ann.id ∧ ann.role ≠ "admin"
    ∧ (dispatch [("protect", protect demoLib demoEnv), ("updatePost", updatePost demoLib)]
        (demoRequest (some "Bearer tok.ann") "p2" { title := some "Taken over" })).1
        = ["protect", "updatePost"]
    ∧ (dispatch [("protect", protect demoLib demoEnv), ("updatePost", updatePost demoLib)]
        (demoRequest (some "Bearer tok.ann") "p2" { title := some "Taken over" })).2.req.user
        = some ann
    ∧ (dispatch [("protect", protect demoLib demoEnv), ("updatePost", updatePost demoLib)]
        (demoRequest (some "Bearer tok.ann") "p2" { title := some "Taken over" })).2.sent
        = [⟨200, true, "Post updated successfully"⟩]
    ∧ (dispatch [("protect", protect demoLib demoEnv), ("updatePost", updatePost demoLib)]
        (demoRequest (some "Bearer tok.ann") "p2" { title := some "Taken over" })).2.posts
        = [annPost, { catPost with title := "Taken over" }]
    ∧ (∀ (L : Lib) (s : State) (u : Option User),
        (updatePost L { s with req := { s.req with user := u } }).sent = (updatePost L s).sent
        ∧ (updatePost L { s with req := { s.req with user := u } }).posts
            = (updatePost L s).posts) := by
  refine ⟨by decide, by decide, by decide, by decide, by decide, by decide, by decide, ?_⟩
  intro L s u
  unfold updatePost
  cases h : Post.findByIdAndUpdate L s.posts s.req.id s.req.body with
  | error m => simp [h, State.json]
  | ok r =>
    obtain ⟨o, posts⟩ := r
    cases o with
    | none => simp [h, State.json]
    | some q => simp [h, State.json]

/-! ## Resources that are not stored -/

/-- C14, as stated, fails: the id `abc` matches no stored post and no stored
comment, yet `deletePost` and `deleteComment` answer 500, not 404, because the
id cannot be cast to an ObjectId. -/
theorem delete_unknown_id_counterexample :
    (∀ P ∈ (demoRequestAs ann "abc" {}).posts, P._id ≠ "abc")
    ∧ (∀ C ∈ (demoRequestAs ann "abc" {}).comments, C._id ≠ "abc")
    ∧ demoLib.castObjectId "abc" = none
    ∧ (deletePost demoLib (demoRequestAs ann "abc" {})).sent
        = [⟨500, false, "Cast to ObjectId failed for value abc"⟩]
    ∧ (deleteComment demoLib (demoRequestAs ann "abc" {})).sent
        = [⟨500, false, "Cast to ObjectId failed for value abc"⟩] := by
  decide

/-- C14, amended: when the id of the request casts to an ObjectId that is the
`_id` of no stored post, `deletePost` writes one 404 response and changes
nothing else, whatever `req.user` is; likewise `deleteComment` for the
comments. Neither handler answers 403 unless the id is the `_id` of a stored
document. -/
theorem delete_not_found (L : Lib) (s : State) (oid : ObjectId)
    (hc : L.castObjectId s.req.id = some oid) :
    ((∀ P ∈ s.posts, P._id ≠ oid) →
        deletePost L s = s.json 404 false "Post not found"
        ∧ (deletePost L s).sent = s.sent ++ [⟨404, false, "Post not found"⟩]
        ∧ (deletePost L s).posts = s.posts ∧ (deletePost L s).comments = s.comments)
    ∧ ((∀ C ∈ s.comments, C._id ≠ oid) →
        deleteComment L s = s.json 404 false "Comment not found"
        ∧ (deleteComment L s).sent = s.sent ++ [⟨404, false, "Comment not found"⟩]
        ∧ (deleteComment L s).posts = s.posts ∧ (deleteComment L s).comments = s.comments)
    ∧ ((deletePost L s).sent = s.sent ++ [⟨403, false, "You can only delete your own posts"⟩]
        → ∃ P ∈ s.posts, P._id = oid)
    ∧ ((deleteComment L s).sent
          = s.sent ++ [⟨403, false, "You can only delete your own comments"⟩]
        → ∃ C ∈ s.comments, C._id = oid) := by
  have hnone : ∀ {α : Type} (key : α → ObjectId) (docs : List α),
      (∀ d ∈ docs, key d ≠ oid) → findById L key docs (some s.req.id) = .ok none := by
    intro α key docs h
    simp only [findById, hc]
    rw [List.find?_eq_none.mpr]
    intro d hd
    simpa using h d hd
  refine ⟨?_, ?_, ?_, ?_⟩
  · intro h
    have hp : deletePost L s = s.json 404 false "Post not found" := by
      simp [deletePost, hnone Post._id s.posts h]
    rw [hp]
    exact ⟨rfl, rfl, rfl, rfl⟩
  · intro h
    have hp : deleteComment L s = s.json 404 false "Comment not found" := by
      simp [deleteComment, hnone Comment._id s.comments h]
    rw [hp]
    exact ⟨rfl, rfl, rfl, rfl⟩
  · intro h
    by_contra hne
    have hall : ∀ P ∈ s.posts, P._id ≠ oid := fun P hP e => hne ⟨P, hP, e⟩
    have hp : deletePost L s = s.json 404 false "Post not found" := by
      simp [deletePost, hnone Post._id s.posts hall]
    rw [hp] at h
    have h1 : s.sent ++ [(⟨404, false, "Post not found"⟩ : Response)]
        = s.sent ++ [⟨403, false, "You can only delete your own posts"⟩] := h
    have h2 := List.append_cancel_left h1
    simp at h2
  · intro h
    by_contra hne
    have hall : ∀ C ∈ s.comments, C._id ≠ oid := fun C hC e => hne ⟨C, hC, e⟩
    have hp : deleteComment L s = s.json 404 false "Comment not found" := by
      simp [deleteComment, hnone Comment._id s.comments hall]
    rw [hp] at h
    have h1 : s.sent ++ [(⟨404, false, "Comment not found"⟩ : Response)]
        = s.sent ++ [⟨403, false, "You can only delete your own comments"⟩] := h
    have h2 := List.append_cancel_left h1
    simp at h2

theorem delete_not_found_witness :
    demoLib.castObjectId (demoRequestAs bob "zz" {}).req.id = some "zz"
    ∧ (∀ P ∈ (demoRequestAs bob "zz" {}).posts, P._id ≠ "zz")
    ∧ (deletePost demoLib (demoRequestAs bob "zz" {})).sent
        = (demoRequestAs bob "zz" {}).sent ++ [⟨404, false, "Post not found"⟩]
    ∧ (deletePost demoLib (demoRequestAs bob "zz" {})).posts = (demoRequestAs bob "zz" {}).posts :=
  ⟨by decide, by decide,
    ((delete_not_found demoLib (demoRequestAs bob "zz" {}) "zz" (by decide)).1 (by decide)).2.1,
    ((delete_not_found demoLib (demoRequestAs bob "zz" {}) "zz" (by decide)).1 (by decide)).2.2.1⟩

/-! ## The shape of error responses -/

/-- C15, the code at two failing inputs: for an id that cannot be cast,
`markAsRead` writes a response with status 500 whose `success` member is
`true`; and the error handler of `server.js` writes a response with status 500
that has no `success` member. -/
theorem error_responses_not_uniform :
    (markAsRead demoLib (demoRequestAs bob "abc" {})).sent
        = [⟨500, some true, some "Cast to ObjectId failed for value abc"⟩]
    ∧ (errorHandler (demoRequest none "p1" {})).sent = [⟨500, none, some "Server error"⟩] := by
  decide

/-! ## Role changes and the signing key -/

/-- C13, as stated, fails: with the same token `tok.ann`, `protect` followed by
`isAdmin` denies (403) while the stored role of the account is `user`, and
allows (both layers call `next`, nothing is written) once the stored role was
set to `admin`. -/
theorem role_change_counterexample :
    (dispatch [("protect", protect demoLib demoEnv), ("isAdmin", isAdmin)]
        (demoRequest (some "Bearer tok.ann") "p1" {})).2.sent
        = [⟨403, false, "Access denied. Admin privileges required."⟩]
    ∧ (dispatch [("protect", protect demoLib demoEnv), ("isAdmin", isAdmin)]
        (demoRequest (some "Bearer tok.ann") "p1" {})).2.nextCalls = 1
    ∧ (dispatch [("protect", protect demoLib demoEnv), ("isAdmin", isAdmin)]
        { demoRequest (some "Bearer tok.ann") "p1" {} with
          users := setRole (demoRequest (some "Bearer tok.ann") "p1" {}).users "a1" "admin" }).2.sent
        = []
    ∧ (dispatch [("protect", protect demoLib demoEnv), ("isAdmin", isAdmin)]
        { demoRequest (some "Bearer tok.ann") "p1" {} with
          users := setRole (demoRequest (some "Bearer tok.ann") "p1" {}).users "a1" "admin" }).2.nextCalls
        = 2 := by
  decide

/-- C13, amended: for a token that verifies to the id of the stored account
`A`, once the stored role of `A` was changed to `role`, `protect` followed by
`isAdmin` decides by the new role, whatever the role was before: it allows
(both layers call `next`, nothing is written, `req.user` carries the new role)
when `role` is `admin`, and otherwise ends with one 403 response. -/
theorem admin_gate_follows_stored_role (L : Lib) (env : ProcessEnv) (s : State)
    (token : String) (d : Decoded) (A : User) (role : String)
    (hT : bearerToken s.req.authorization = some token) (hE : token ≠ "")
    (hV : L.jwtVerify token (jwtSecret env) = .ok d)
    (hF : findById L User._id s.users d.id = .ok (some A)) :
    (role = "admin" →
      dispatch [("protect", protect L env), ("isAdmin", isAdmin)]
          { s with users := setRole s.users A._id role }
        = (["protect", "isAdmin"],
            { s with
              users := setRole s.users A._id role,
              verified := s.verified ++ [token],
              req := { s.req with user := some { A with role := role } },
              nextCalls := s.nextCalls + 2 }))
    ∧ (role ≠ "admin" →
      dispatch [("protect", protect L env), ("isAdmin", isAdmin)]
          { s with users := setRole s.users A._id role }
        = (["protect", "isAdmin"],
            { s with
              users := setRole s.users A._id role,
              verified := s.verified ++ [token],
              req := { s.req with user := some { A with role := role } },
              nextCalls := s.nextCalls + 1,
              sent := s.sent
                ++ [⟨403, false, "Access denied. Admin privileges required."⟩] })) := by
  have hF2 := findById_setRole L s.users d.id A role hF
  have hp : protect L env { s with users := setRole s.users A._id role }
      = ({ s with
            users := setRole s.users A._id role,
            verified := s.verified ++ [token],
            req := { s.req with user := some { A with role := role } } }).next := by
    simp [protect, hT, hE, hV, hF2]
  constructor
  · intro hr
    simp only [dispatch]
    rw [hp]
    simp [isAdmin, State.next, hr]
  · intro hr
    simp only [dispatch]
    rw [hp]
    simp [isAdmin, State.next, State.json, hr]

theorem admin_gate_follows_stored_role_witness :
    bearerToken (demoRequest (some "Bearer tok.bob") "p1" {}).req.authorization = some "tok.bob"
    ∧ bob.role = "admin"
    ∧ ("user" ≠ "admin" →
      dispatch [("protect", protect demoLib demoEnv), ("isAdmin", isAdmin)]
          { demoRequest (some "Bearer tok.bob") "p1" {} with
            users := setRole (demoRequest (some "Bearer tok.bob") "p1" {}).users bob._id "user" }
        = (["protect", "isAdmin"],
            { demoRequest (some "Bearer tok.bob") "p1" {} with
              users := setRole (demoRequest (some "Bearer tok.bob") "p1" {}).users bob._id "user",
              verified := (demoRequest (some "Bearer tok.bob") "p1" {}).verified ++ ["tok.bob"],
              req := { (demoRequest (some "Bearer tok.bob") "p1" {}).req with
                        user := some { bob with role := "user" } },
              nextCalls := (demoRequest (some "Bearer tok.bob") "p1" {}).nextCalls + 1,
              sent := (demoRequest (some "Bearer tok.bob") "p1" {}).sent
                ++ [⟨403, false, "Access denied. Admin privileges required."⟩] })) :=
  ⟨by decide, by decide,
    (admin_gate_follows_stored_role demoLib demoEnv (demoRequest (some "Bearer tok.bob") "p1" {})
      "tok.bob" ⟨some "b2"⟩ bob "user" (by decide) (by decide) (by rfl) (by rfl)).2⟩

/-- C20: when `JWT_SECRET` is unset or empty, the key `protect` verifies with is
the one written in `auth.js`, and a request with the header `Bearer <token>`
whose token verifies under that key to the id of a stored account is let
through: `req.user` is that account, `next` is called, nothing is written.
When `JWT_SECRET` is a non-empty string the key is that string. The outcome of
`protect` depends on `jwt.verify` only through its results under that key. -/
theorem protect_secret_fallback (L : Lib) (env : ProcessEnv) (s : State)
    (token : String) (d : Decoded) (A : User)
    (hS : env.JWT_SECRET = none ∨ env.JWT_SECRET = some "")
    (hH : s.req.authorization = some ("Bearer " ++ token))
    (hE : token ≠ "") (hSp : ' ' ∉ token.data)
    (hV : L.jwtVerify token "your-secret-key-change-this" = .ok d)
    (hA : findById L User._id s.users d.id = .ok (some A)) :
    jwtSecret env = "your-secret-key-change-this"
    ∧ (protect L env s).req.user = some A
    ∧ (protect L env s).nextCalls = s.nextCalls + 1
    ∧ (protect L env s).sent = s.sent
    ∧ (∀ k, k ≠ "" → jwtSecret ⟨some k⟩ = k)
    ∧ (∀ (L2 : Lib) (env2 : ProcessEnv) (s2 : State),
        L2.castObjectId = L.castObjectId
        → (∀ t, L2.jwtVerify t (jwtSecret env2) = L.jwtVerify t (jwtSecret env2))
        → protect L2 env2 s2 = protect L env2 s2) := by
  have hk : jwtSecret env = "your-secret-key-change-this" := by
    rcases hS with h | h <;> simp [jwtSecret, h]
  have hV2 : L.jwtVerify token (jwtSecret env) = .ok d := by rw [hk]; exact hV
  obtain ⟨h1, _, _, h2, h3⟩ := protect_attaches_account_aux L env s token d A hH hE hSp hV2 hA
  refine ⟨hk, h1, h2, h3, ?_, ?_⟩
  · intro k hne
    simp [jwtSecret, hne]
  · intro L2 env2 s2 hc hv
    simp only [protect, findById, hc, hv]

theorem protect_secret_fallback_witness :
    ((⟨none⟩ : ProcessEnv).JWT_SECRET = none ∨ (⟨none⟩ : ProcessEnv).JWT_SECRET = some "")
    ∧ demoLib.jwtVerify "tok.dflt" "your-secret-key-change-this" = .ok ⟨some "a1"⟩
    ∧ jwtSecret ⟨none⟩ = "your-secret-key-change-this"
    ∧ (protect demoLib ⟨none⟩ (demoRequest (some "Bearer tok.dflt") "p1" {})).req.user = some ann
    ∧ (protect demoLib ⟨none⟩ (demoRequest (some "Bearer tok.dflt") "p1" {})).nextCalls
        = (demoRequest (some "Bearer tok.dflt") "p1" {}).nextCalls + 1
    ∧ (protect demoLib ⟨none⟩ (demoRequest (some "Bearer tok.dflt") "p1" {})).sent
        = (demoRequest (some "Bearer tok.dflt") "p1" {}).sent :=
  ⟨Or.inl rfl, by rfl,
    (protect_secret_fallback demoLib ⟨none⟩ (demoRequest (some "Bearer tok.dflt") "p1" {})
      "tok.dflt" ⟨some "a1"⟩ ann (Or.inl rfl) (by decide) (by decide) (by decide) (by rfl)
      (by rfl)).1,
    (protect_secret_fallback demoLib ⟨none⟩ (demoRequest (some "Bearer tok.dflt") "p1" {})
      "tok.dflt" ⟨some "a1"⟩ ann (Or.inl rfl) (by decide) (by decide) (by decide) (by rfl)
      (by rfl)).2.1,
    (protect_secret_fallback demoLib ⟨none⟩ (demoRequest (some "Bearer tok.dflt") "p1" {})
      "tok.dflt" ⟨some "a1"⟩ ann (Or.inl rfl) (by decide) (by decide) (by decide) (by rfl)
      (by rfl)).2.2.1,
    (protect_secret_fallback demoLib ⟨none⟩ (demoRequest (some "Bearer tok.dflt") "p1" {})
      "tok.dflt" ⟨some "a1"⟩ ann (Or.inl rfl) (by decide) (by decide) (by decide) (by rfl)
      (by rfl)).2.2.2.1⟩

/-! ## Validation failures -/

/-- C16, the code at a failing input: a contact message whose email does not
match the pattern and whose text is too short fails the validation of
`models/Contact.js`, and `submitContact`, a route without authentication,
answers with status 401 and stores nothing. For every library and request the
answer to a body that fails validation has status 401. -/
theorem submitContact_invalid_payload :
    contactFailures
        { name := some "Dan", email := some "not-an-email", subject := some "Hi",
          message := some "short" }
      = [("email", "Please provide a valid email"),
          ("message", "Message must be at least 10 characters")]
    ∧ (submitContact demoLib
        (demoRequest none ""
          { name := some "Dan", email := some "not-an-email", subject := some "Hi",
            message := some "short" })).sent
      = [⟨401, false,
          "Contact validation failed: email: Please provide a valid email, message: Message must be at least 10 characters"⟩]
    ∧ (submitContact demoLib
        (demoRequest none ""
          { name := some "Dan", email := some "not-an-email", subject := some "Hi",
            message := some "short" })).contacts
      = [danContact]
    ∧ (∀ (L : Lib) (s : State), contactFailures s.req.body ≠ [] →
        (submitContact L s).sent
          = s.sent ++ [⟨401, false, L.validationMessage "Contact" (contactFailures s.req.body)⟩]) := by
  refine ⟨by decide, by decide, by decide, ?_⟩
  intro L s h
  cases hf : contactFailures s.req.body with
  | nil => exact absurd hf h
  | cons f fs => simp [submitContact, Contact.create, hf, State.json]

/-! ## The password of an account -/

/-- C17: the pre-save hook returns a document whose password is not modified
exactly as it was, and in a document whose password was set to the plaintext
`P` it replaces the password by `bcrypt.hash(P, 12)` and changes nothing else;
a new account created with the password `P` is stored with that hash. -/
theorem preSave_hashes_only_modified (B : Bcrypt) (salt : String) (d : UserDoc) :
    (d.isModified "password" = false → d.preSave B salt = .ok d)
    ∧ (∀ P, d.isModified "password" = true → d.password = some P →
        d.preSave B salt = .ok { d with password := some (B.hash P 12 salt) })
    ∧ (∀ (L : Lib) (stored : List UserDoc) (name email password : Option String)
        (saved : UserDoc) (stored2 : List UserDoc),
        User.create L B salt stored name email password = .ok (saved, stored2) →
        ∃ P, password = some P ∧ saved.password = some (B.hash P 12 salt)
          ∧ stored2 = stored ++ [saved]) := by
  refine ⟨?_, ?_, ?_⟩
  · intro h
    simp [UserDoc.preSave, h]
  · intro P h hp
    simp [UserDoc.preSave, h, hp]
  · intro L stored name email password saved stored2 h
    obtain ⟨_, P, hP, hs, _, h2⟩ := User.create_ok L B salt stored name email password saved stored2 h
    exact ⟨P, hP, by rw [hs], h2⟩

/-- C18: when an account whose password was set to the plaintext `P` is saved
and `bcrypt.compare` accepts `P` against the hash the hook stored, then
`comparePassword(P)` on the saved account returns `true`; and for every
candidate string `comparePassword` returns the verdict of `bcrypt.compare`
without throwing, so `false` for a candidate that does not match. -/
theorem comparePassword_after_save (B : Bcrypt) (salt : String) (d : UserDoc) (P : String)
    (hm : d.isModified "password" = true) (hp : d.password = some P)
    (hB : B.compare P (B.hash P 12 salt) = true) :
    ∃ saved, d.preSave B salt = .ok saved
      ∧ saved.comparePassword B (some P) = .ok true
      ∧ (∀ candidate, saved.comparePassword B (some candidate)
          = .ok (B.compare candidate (B.hash P 12 salt)))
      ∧ (∀ candidate, B.compare candidate (B.hash P 12 salt) = false →
          saved.comparePassword B (some candidate) = .ok false) := by
  refine ⟨{ d with password := some (B.hash P 12 salt) }, ?_, ?_, ?_, ?_⟩
  · simp [UserDoc.preSave, hm, hp]
  · simp [UserDoc.comparePassword, hB]
  · intro candidate
    simp [UserDoc.comparePassword]
  · intro candidate hc
    simp [UserDoc.comparePassword, hc]

theorem comparePassword_after_save_witness :
    annDoc.isModified "password" = true ∧ annDoc.password = some "secret1"
    ∧ demoBcrypt.compare "secret1" (demoBcrypt.hash "secret1" 12 "s4lt") = true
    ∧ ∃ saved, annDoc.preSave demoBcrypt "s4lt" = .ok saved
      ∧ saved.comparePassword demoBcrypt (some "secret1") = .ok true
      ∧ (∀ candidate, saved.comparePassword demoBcrypt (some candidate)
          = .ok (demoBcrypt.compare candidate (demoBcrypt.hash "secret1" 12 "s4lt")))
      ∧ (∀ candidate, demoBcrypt.compare candidate (demoBcrypt.hash "secret1" 12 "s4lt") = false →
          saved.comparePassword demoBcrypt (some candidate) = .ok false) :=
  ⟨by decide, by decide, by decide,
    comparePassword_after_save demoBcrypt "s4lt" annDoc "secret1" (by decide) (by decide)
      (by decide)⟩

/-! ## The email of an account -/

/-- C19: when `toLowerCase` is idempotent and commutes with `trim`, the email of
every account `User.create` stores is trimmed, lower-cased and matches the
pattern of the schema, that is, it has no white space and is a non-empty part,
an `@`, a non-empty part, a dot and a non-empty part. An address that differs
from the submitted one only by white space around it and by letter case is
given the same stored value by the setters, and creating an account with it
afterwards is rejected by the unique index once its other members are valid. -/
theorem user_email_normalised (L : Lib) (B : Bcrypt) (salt : String) (stored : List UserDoc)
    (name email password : Option String) (saved : UserDoc) (stored2 : List UserDoc)
    (hI : ∀ x, L.toLowerCase (L.toLowerCase x) = L.toLowerCase x)
    (hC : ∀ x, trim (L.toLowerCase x) = L.toLowerCase (trim x))
    (hS : User.create L B salt stored name email password = .ok (saved, stored2)) :
    trim saved.user.email = saved.user.email
    ∧ L.toLowerCase saved.user.email = saved.user.email
    ∧ matchAtoms saved.user.email.data emailPattern = true
    ∧ ((∀ x ∈ saved.user.email.data, isWhiteSpace x = false)
        ∧ ∃ a b c, saved.user.email.data = a ++ '@' :: (b ++ '.' :: c)
            ∧ a ≠ [] ∧ b ≠ [] ∧ c ≠ [])
    ∧ (∀ (e1 e2 : String) (w1 w2 : List Char), email = some e1
        → (∀ x ∈ w1, isWhiteSpace x = true) → (∀ x ∈ w2, isWhiteSpace x = true)
        → L.toLowerCase e2 = L.toLowerCase e1
        → userEmailSet L ⟨w1 ++ e2.data ++ w2⟩ = saved.user.email
          ∧ ∀ (B2 : Bcrypt) (salt2 : String) (name2 password2 : Option String),
              userFailures (name2.map trim) (some (userEmailSet L ⟨w1 ++ e2.data ++ w2⟩))
                  password2 = []
              → User.create L B2 salt2 stored2 name2 (some ⟨w1 ++ e2.data ++ w2⟩) password2
                = .error (L.duplicateKeyMessage "email" saved.user.email)) := by
  obtain ⟨hf, P, hP, hs, _, h2⟩ :=
    User.create_ok L B salt stored name email password saved stored2 hS
  cases email with
  | none =>
    subst hP
    simp [userFailures] at hf
  | some e =>
    have hmail : saved.user.email = userEmailSet L e := by rw [hs]; rfl
    have hne : userEmailSet L e ≠ "" := by
      intro he
      subst hP
      simp [userFailures, he] at hf
    have hmatch : matchAtoms (userEmailSet L e).data emailPattern = true := by
      by_contra hm
      subst hP
      simp [userFailures, hne, hm] at hf
    have htrim : trim (userEmailSet L e) = userEmailSet L e := by
      unfold userEmailSet
      rw [hC, trim_idem]
    have hlow : L.toLowerCase (userEmailSet L e) = userEmailSet L e := by
      unfold userEmailSet
      rw [hI]
    refine ⟨by rw [hmail]; exact htrim, by rw [hmail]; exact hlow, by rw [hmail]; exact hmatch,
      by rw [hmail]; exact (matchAtoms_emailPattern _).mp hmatch, ?_⟩
    intro e1 e2 w1 w2 he1 hw1 hw2 hcase
    have he : e = e1 := Option.some.inj he1
    subst he
    have hset : userEmailSet L ⟨w1 ++ e2.data ++ w2⟩ = saved.user.email := by
      rw [hmail]
      unfold userEmailSet
      have ht : trim ⟨w1 ++ e2.data ++ w2⟩ = trim e2 := by
        simp only [trim]
        rw [trimChars_surround w1 e2.data w2 hw1 hw2]
      rw [ht, ← hC, hcase, hC]
    refine ⟨hset, ?_⟩
    intro B2 salt2 name2 password2 hv
    cases password2 with
    | none => simp [userFailures] at hv
    | some P2 =>
      have hany : stored2.any (fun x => x.user.email == saved.user.email) = true := by
        rw [h2]
        simp
      unfold User.create
      simp only [Option.map_some']
      rw [hv]
      simp only [UserDoc.preSave, UserDoc.isModified, Option.getD_some, hset]
      simp [hany]

theorem user_email_normalised_witness :
    User.create demoLib demoBcrypt "s4lt" [] (some " Eve ") (some "  Eve@X.com ")
        (some "secret1") = .ok (eveDoc, [eveDoc])
    ∧ trim eveDoc.user.email = eveDoc.user.email
    ∧ demoLib.toLowerCase eveDoc.user.email = eveDoc.user.email
    ∧ matchAtoms eveDoc.user.email.data emailPattern = true
    ∧ ((∀ x ∈ eveDoc.user.email.data, isWhiteSpace x = false)
        ∧ ∃ a b c, eveDoc.user.email.data = a ++ '@' :: (b ++ '.' :: c)
            ∧ a ≠ [] ∧ b ≠ [] ∧ c ≠ [])
    ∧ (∀ (e1 e2 : String) (w1 w2 : List Char), some "  Eve@X.com " = some e1
        → (∀ x ∈ w1, isWhiteSpace x = true) → (∀ x ∈ w2, isWhiteSpace x = true)
        → demoLib.toLowerCase e2 = demoLib.toLowerCase e1
        → userEmailSet demoLib ⟨w1 ++ e2.data ++ w2⟩ = eveDoc.user.email
          ∧ ∀ (B2 : Bcrypt) (salt2 : String) (name2 password2 : Option String),
              userFailures (name2.map trim)
                  (some (userEmailSet demoLib ⟨w1 ++ e2.data ++ w2⟩)) password2 = []
              → User.create demoLib B2 salt2 [eveDoc] name2 (some ⟨w1 ++ e2.data ++ w2⟩) password2
                = .error (demoLib.duplicateKeyMessage "email" eveDoc.user.email)) :=
  ⟨by rfl,
    user_email_normalised demoLib demoBcrypt "s4lt" [] (some " Eve ") (some "  Eve@X.com ")
      (some "secret1") eveDoc [eveDoc] demoLib_toLowerCase_idem demoLib_toLowerCase_trim
      (by rfl)⟩

/-! ## The outcomes of `protect` -/

/-- C21: on every input `protect` either calls `next` exactly once and writes
no response, or writes exactly one response, with an error status, and does
not call `next`; it never both calls `next` and writes, and never does
neither. -/
theorem protect_terminal_outcomes (L : Lib) (env : ProcessEnv) (s : State) :
    (((protect L env s).nextCalls = s.nextCalls + 1 ∧ (protect L env s).sent = s.sent)
      ∨ ((protect L env s).nextCalls = s.nextCalls
          ∧ ∃ r, (protect L env s).sent = s.sent ++ [r] ∧ 400 ≤ r.status))
    ∧ ¬ (s.nextCalls < (protect L env s).nextCalls ∧ (protect L env s).sent ≠ s.sent)
    ∧ ¬ ((protect L env s).nextCalls = s.nextCalls ∧ (protect L env s).sent = s.sent) := by
  rcases protect_cases L env s with ⟨token, d, A, _, _, _, _, hp⟩ | ⟨_, message, vs, hp⟩
  · rw [hp]
    refine ⟨Or.inl ⟨rfl, rfl⟩, ?_, ?_⟩
    · rintro ⟨_, h⟩
      exact h rfl
    · rintro ⟨h, _⟩
      have h1 : s.nextCalls + 1 = s.nextCalls := h
      omega
  · rw [hp]
    refine ⟨Or.inr ⟨rfl, ⟨401, false, message⟩, rfl, show 400 ≤ 401 by decide⟩, ?_, ?_⟩
    · rintro ⟨h, _⟩
      have h1 : s.nextCalls < s.nextCalls := h
      omega
    · rintro ⟨_, h⟩
      have h1 : s.sent ++ [(⟨401, false, message⟩ : Response)] = s.sent := h
      have h2 := congrArg List.length h1
      simp at h2

/-! ## The contact messages -/

/-- C22, the code at failing inputs: no stack of `contactRoutes` contains
`isAdmin`, and with the token of `ann`, whose role is `user`, the routes of
`markAsRead`, `deleteMessage` and `getAllMessages` run their handler and answer
200; the stored message is marked read, respectively deleted. -/
theorem contact_management_not_admin_only :
    ann.role ≠ "admin"
    ∧ (∀ r ∈ contactRoutes demoLib demoEnv, "isAdmin" ∉ r.stack.map Prod.fst)
    ∧ dispatch [("protect", protect demoLib demoEnv), ("markAsRead", markAsRead demoLib)]
        (demoRequest (some "Bearer tok.ann") "q1" {})
      = (["protect", "markAsRead"],
          { demoRequest (some "Bearer tok.ann") "q1" {} with
            req := { authorization := some "Bearer tok.ann", id := "q1", user := some ann },
            verified := ["tok.ann"], nextCalls := 1,
            contacts := [{ danContact with status := "read" }],
            sent := [⟨200, some true, none⟩] })
    ∧ dispatch [("protect", protect demoLib demoEnv), ("deleteMessage", deleteMessage demoLib)]
        (demoRequest (some "Bearer tok.ann") "q1" {})
      = (["protect", "deleteMessage"],
          { demoRequest (some "Bearer tok.ann") "q1" {} with
            req := { authorization := some "Bearer tok.ann", id := "q1", user := some ann },
            verified := ["tok.ann"], nextCalls := 1,
            contacts := [],
            sent := [⟨200, true, "Message deleted successfully"⟩] })
    ∧ (dispatch [("protect", protect demoLib demoEnv), ("getAllMessages", getAllMessages)]
        (demoRequest (some "Bearer tok.ann") "" {})).2.sent
      = [⟨200, some true, none⟩] := by
  refine ⟨by decide, ?_, by decide, by decide, by decide⟩
  intro r hr
  simp only [contactRoutes, List.mem_cons, List.mem_singleton, List.not_mem_nil, or_false] at hr
  rcases hr with rfl | rfl | rfl | rfl <;> decide

/-! ## Likes -/

/-- What `likePost` does with a stored post `P` (the `_id`s of the collection
being pairwise distinct) when `req.user` is `U`: if `U` is not in `P.likes`, it
stores `P` with `likes` followed by `U` and `likesCount` the new length,
answers 200 and reports that count; if `U` is in `P.likes` it answers 400 and
the collection is unchanged. So the stored post has no duplicate like when `P`
had none, and its `likesCount` is the length of its `likes` when a like was
added, or when that held for `P`. -/
theorem likePost_appends (L : Lib) (s : State) (P : Post) (U : User)
    (hn : (s.posts.map Post._id).Nodup) (hm : P ∈ s.posts)
    (hi : L.castObjectId s.req.id = some P._id)
    (hu : s.req.user = some U) :
    (U.id ∉ P.likes →
      (likePost L s).posts
          = Post.save s.posts
              { P with likes := P.likes ++ [U.id], likesCount := (P.likes ++ [U.id]).length }
      ∧ ({ P with likes := P.likes ++ [U.id], likesCount := (P.likes ++ [U.id]).length } : Post)
          ∈ (likePost L s).posts
      ∧ (likePost L s).sent = s.sent ++ [⟨200, true, "Post liked successfully"⟩]
      ∧ (likePost L s).payloads
          = s.payloads ++ [{ likesCount := some (((P.likes ++ [U.id]).length : Nat) : Int) }])
    ∧ (U.id ∈ P.likes →
      (likePost L s).sent = s.sent ++ [⟨400, false, "you already liked post"⟩]
      ∧ (likePost L s).posts = s.posts
      ∧ (likePost L s).payloads = s.payloads)
    ∧ (∀ Q ∈ (likePost L s).posts, Q._id = P._id →
        (P.likes.Nodup → Q.likes.Nodup)
        ∧ ((U.id ∉ P.likes ∨ P.likesCount = P.likes.length) → Q.likesCount = Q.likes.length)) := by
  have hf : findById L Post._id s.posts (some s.req.id) = .ok (some P) := by
    simp [findById, hi, find?_of_nodup Post._id s.posts P hm hn]
  by_cases hin : U.id ∈ P.likes
  · have hp : likePost L s = s.json 400 false "you already liked post" := by
      simp [likePost, hu, hf, hin]
    rw [hp]
    refine ⟨fun h => absurd hin h, fun _ => ⟨rfl, rfl, rfl⟩, ?_⟩
    intro Q hQ hid
    have hQP : Q = P := eq_of_id_eq Post._id s.posts Q P hn hQ hm hid
    subst hQP
    refine ⟨fun h => h, fun h => ?_⟩
    rcases h with h | h
    · exact absurd hin h
    · exact h
  · have hp : likePost L s
        = State.sendWith
            { s with
              posts :=
                Post.save s.posts
                  { P with likes := P.likes ++ [U.id], likesCount := (P.likes ++ [U.id]).length } }
            ⟨200, true, "Post liked successfully"⟩
            { likesCount := some (((P.likes ++ [U.id]).length : Nat) : Int) } := by
      simp [likePost, hu, hf, hin]
    rw [hp]
    refine ⟨fun _ => ⟨rfl, ?_, rfl, rfl⟩, fun h => absurd h hin, ?_⟩
    · exact Post.mem_save s.posts P _ hm rfl
    · intro Q hQ hid
      rcases Post.of_mem_save s.posts _ Q hQ with h | ⟨_, h⟩
      · subst h
        refine ⟨fun hnd => ?_, fun _ => rfl⟩
        show (P.likes ++ [U.id]).Nodup
        rw [List.nodup_append]
        refine ⟨hnd, by simp, ?_⟩
        intro a ha hb
        rw [List.mem_singleton] at hb
        subst hb
        exact hin ha
      · exact absurd hid h

theorem likePost_appends_witness :
    ((likesRequestAs bob "p3").posts.map Post._id).Nodup
    ∧ likedPost ∈ (likesRequestAs bob "p3").posts
    ∧ bob.id ∉ likedPost.likes
    ∧ (likePost demoLib (likesRequestAs bob "p3")).posts
        = [annPost, catPost, { likedPost with likes := ["a1", "b2"], likesCount := 2 }]
    ∧ (likePost demoLib (likesRequestAs bob "p3")).sent
        = (likesRequestAs bob "p3").sent ++ [⟨200, true, "Post liked successfully"⟩]
    ∧ (likePost demoLib (likesRequestAs bob "p3")).payloads
        = (likesRequestAs bob "p3").payloads
            ++ [{ likesCount := some (((likedPost.likes ++ [bob.id]).length : Nat) : Int) }] :=
  ⟨by decide, by decide, by decide, by decide,
    ((likePost_appends demoLib (likesRequestAs bob "p3") likedPost bob (by decide) (by decide)
      (by decide) rfl).1 (by decide)).2.2.1,
    ((likePost_appends demoLib (likesRequestAs bob "p3") likedPost bob (by decide) (by decide)
      (by decide) rfl).1 (by decide)).2.2.2⟩

/-- C23, the code at a failing input: on a post nobody had liked, `ann` likes,
`bob` likes, `bob` unlikes and `ann` likes again. The first two requests are
answered 200 and store `likes` followed by the user with `likesCount` the new
length, 1 then 2. The unlike leaves `likesCount` at 2 with `ann` alone in
`likes`. The last request is answered 400 and leaves the post as it is: its
`likes` have no duplicate, but its `likesCount` is 2 and the length of its
`likes` is 1. For every library, stored post and user, `likePost` on a user not
in `likes` stores `likes` followed by the user with `likesCount` the new length
and reports it, on a user in `likes` it answers 400 and changes no post, and
it introduces no duplicate like. -/
theorem likePost_after_stale_unlike :
    annPost.likes = [] ∧ annPost.likesCount = 0
    ∧ (likePost demoLib (likesRequestAs ann "p1")).sent
        = [⟨200, true, "Post liked successfully"⟩]
    ∧ (likePost demoLib (likesRequestAs ann "p1")).payloads = [{ likesCount := some 1 }]
    ∧ (likePost demoLib (likesRequestAs ann "p1")).posts
        = [{ annPost with likes := ["a1"], likesCount := 1 }, catPost, likedPost]
    ∧ (likePost demoLib
        (nextRequestAs (likePost demoLib (likesRequestAs ann "p1")) bob "p1")).posts
        = [{ annPost with likes := ["a1", "b2"], likesCount := 2 }, catPost, likedPost]
    ∧ (unlikePost demoLib
        (nextRequestAs
          (likePost demoLib
            (nextRequestAs (likePost demoLib (likesRequestAs ann "p1")) bob "p1"))
          bob "p1")).posts
        = [{ annPost with likes := ["a1"], likesCount := 2 }, catPost, likedPost]
    ∧ (likePost demoLib
        (nextRequestAs
          (unlikePost demoLib
            (nextRequestAs
              (likePost demoLib
                (nextRequestAs (likePost demoLib (likesRequestAs ann "p1")) bob "p1"))
              bob "p1"))
          ann "p1")).sent
        = [⟨400, false, "you already liked post"⟩]
    ∧ (likePost demoLib
        (nextRequestAs
          (unlikePost demoLib
            (nextRequestAs
              (likePost demoLib
                (nextRequestAs (likePost demoLib (likesRequestAs ann "p1")) bob "p1"))
              bob "p1"))
          ann "p1")).posts
        = [{ annPost with likes := ["a1"], likesCount := 2 }, catPost, likedPost]
    ∧ ({ annPost with likes := ["a1"], likesCount := 2 } : Post).likes.Nodup
    ∧ ({ annPost with likes := ["a1"], likesCount := 2 } : Post).likesCount
        ≠ ({ annPost with likes := ["a1"], likesCount := 2 } : Post).likes.length
    ∧ (∀ (L : Lib) (s : State) (P : Post) (U : User),
        (s.posts.map Post._id).Nodup → P ∈ s.posts
        → L.castObjectId s.req.id = some P._id → s.req.user = some U
        → (U.id ∉ P.likes →
            (likePost L s).posts
                = Post.save s.posts
                    { P with
                      likes := P.likes ++ [U.id], likesCount := (P.likes ++ [U.id]).length }
            ∧ (likePost L s).sent = s.sent ++ [⟨200, true, "Post liked successfully"⟩]
            ∧ (likePost L s).payloads
                = s.payloads
                    ++ [{ likesCount := some (((P.likes ++ [U.id]).length : Nat) : Int) }])
          ∧ (U.id ∈ P.likes →
              (likePost L s).sent = s.sent ++ [⟨400, false, "you already liked post"⟩]
              ∧ (likePost L s).posts = s.posts)
          ∧ (∀ Q ∈ (likePost L s).posts, Q._id = P._id → P.likes.Nodup → Q.likes.Nodup)) := by
  refine ⟨by decide, by decide, by decide, by decide, by decide, by decide, by decide,
    by decide, by decide, by decide, by decide, ?_⟩
  intro L s P U hn hm hi hu
  obtain ⟨h1, h2, h3⟩ := likePost_appends L s P U hn hm hi hu
  exact ⟨fun h => ⟨(h1 h).1, (h1 h).2.2.1, (h1 h).2.2.2⟩,
    fun h => ⟨(h2 h).1, (h2 h).2.1⟩,
    fun Q hQ hid hnd => (h3 Q hQ hid).1 hnd⟩

/-- C24, the code at failing inputs: `ann` unlikes a post whose `likes` are
`ann` alone and whose `likesCount` is 1; `unlikePost` answers 200, the stored
`likes` are empty, but the stored `likesCount` and the count reported are still
1. And when `ann` likes and then unlikes a post nobody had liked, the `likes`
are empty again but `likesCount` is 1, not 0. The `likes` themselves are always
the old ones without the user, in order. -/
theorem unlikePost_keeps_likesCount :
    (unlikePost demoLib (likesRequestAs ann "p3")).sent
        = [⟨200, true, "Post unliked successfully"⟩]
    ∧ (unlikePost demoLib (likesRequestAs ann "p3")).posts
        = [annPost, catPost, { likedPost with likes := [], likesCount := 1 }]
    ∧ (unlikePost demoLib (likesRequestAs ann "p3")).payloads = [{ likesCount := some 1 }]
    ∧ annPost.likes = [] ∧ annPost.likesCount = 0
    ∧ (unlikePost demoLib
        { likePost demoLib (likesRequestAs ann "p1") with sent := [], payloads := [] }).posts
        = [{ annPost with likes := [], likesCount := 1 }, catPost, likedPost]
    ∧ (unlikePost demoLib
        { likePost demoLib (likesRequestAs ann "p1") with sent := [], payloads := [] }).payloads
        = [{ likesCount := some 1 }] := by
  decide

/-! ## The `count` of list responses -/

/-- C26, the code at a failing input: with one stored contact message
`getAllMessages` answers 200 with a `data` array of one item and `count` 2.
On every exchange its `count` is 2, the number of parameters of the function
`getAllMessages`, whatever the number of messages, whereas the `count` of
`getAllComments` is the number of items of its `data`. -/
theorem getAllMessages_count :
    (demoRequestAs bob "" {}).contacts.length = 1
    ∧ (getAllMessages (demoRequestAs bob "" {})).sent = [⟨200, some true, none⟩]
    ∧ (getAllMessages (demoRequestAs bob "" {})).payloads
        = [{ count := some 2, items := some 1 }]
    ∧ (∀ s : State, (getAllMessages s).payloads
        = s.payloads ++ [{ count := some 2, items := some s.contacts.length }])
    ∧ (∀ s : State, (getAllComments s).payloads
        = s.payloads ++ [{ count := some s.comments.length, items := some s.comments.length }]) := by
  refine ⟨by decide, by decide, by decide, ?_, ?_⟩
  · intro s
    simp [getAllMessages, State.sendWith, getAllMessages_length]
  · intro s
    simp [getAllComments, State.sendWith]

/-! ## The client and the server -/

/-- C25: the categories of the CreatePost form are the `enum` of the path
`category` of the Post model, in the same order: every category of the form is
allowed by the schema and every allowed value is in the form; and every option
of the `select` that passes the form's check is allowed by the schema. -/
theorem createPost_categories_match :
    CreatePost.categories = postCategories
    ∧ (∀ c, c ∈ CreatePost.categories ↔ c ∈ postCategories)
    ∧ (∀ c ∈ CreatePost.categoryOptions, CreatePost.categoryError c = none → c ∈ postCategories) := by
  refine ⟨rfl, fun c => Iff.rfl, ?_⟩
  decide

/-- C28: for a non-empty token without a space, the header the request
interceptor builds is `Bearer ` followed by the token, `protect` reads the
token back from it, and the token is what `protect` hands to `jwt.verify`. -/
theorem interceptor_protect_round_trip (L : Lib) (env : ProcessEnv) (s : State) (t : String)
    (hE : t ≠ "") (hS : ' ' ∉ t.data) :
    requestInterceptor (some t) = some ("Bearer " ++ t)
    ∧ bearerToken (requestInterceptor (some t)) = some t
    ∧ (protect L env
        { s with req := { s.req with authorization := requestInterceptor (some t) } }).verified
      = s.verified ++ [t] := by
  have h1 : requestInterceptor (some t) = some ("Bearer " ++ t) := by
    simp [requestInterceptor, hE]
  have h2 : bearerToken (some ("Bearer " ++ t)) = some t := bearerToken_bearer t hS
  refine ⟨h1, by rw [h1]; exact h2, ?_⟩
  rw [h1]
  unfold protect
  simp only [h2, hE, if_false]
  cases L.jwtVerify t (jwtSecret env) with
  | error e => rfl
  | ok d =>
    simp only
    cases findById L User._id s.users d.id with
    | error e => rfl
    | ok r =>
      cases r with
      | none => rfl
      | some u => rfl

theorem interceptor_protect_round_trip_witness :
    "tok.ann" ≠ "" ∧ ' ' ∉ "tok.ann".data
    ∧ requestInterceptor (some "tok.ann") = some ("Bearer " ++ "tok.ann")
    ∧ bearerToken (requestInterceptor (some "tok.ann")) = some "tok.ann"
    ∧ (protect demoLib demoEnv
        { demoRequest none "p1" {} with
          req := { (demoRequest none "p1" {}).req with
                    authorization := requestInterceptor (some "tok.ann") } }).verified
      = (demoRequest none "p1" {}).verified ++ ["tok.ann"] :=
  ⟨by decide, by decide,
    interceptor_protect_round_trip demoLib demoEnv (demoRequest none "p1" {}) "tok.ann"
      (by decide) (by decide)⟩

/-- C29: a file that `validateImage` reports as valid has a type that starts
with `image/`, so the `fileFilter` of the upload middleware accepts it, and a
size of at most 5 MB, which is within the `fileSize` limit of 10 MB. -/
theorem validateImage_implies_upload_checks (file : File)
    (h : (validateImage (some file)).valid = true) :
    fileFilter file.type = true
    ∧ file.size ≤ 5 * 1024 * 1024
    ∧ file.size ≤ fileSizeLimit := by
  unfold validateImage at h
  simp only at h
  split at h
  · simp at h
  · rename_i ht
    split at h
    · simp at h
    · rename_i hs
      have hmem : file.type ∈ ["image/jpeg", "image/jpg", "image/png", "image/gif", "image/webp"] := by
        by_contra hc
        apply ht
        simpa using hc
      have hsz : file.size ≤ 5 * 1024 * 1024 := by omega
      refine ⟨?_, hsz, ?_⟩
      · simp only [List.mem_cons, List.mem_singleton, List.not_mem_nil, or_false] at hmem
        rcases hmem with e | e | e | e | e <;> rw [e] <;> decide
      · unfold fileSizeLimit
        omega

theorem validateImage_implies_upload_checks_witness :
    (validateImage (some ⟨"image/png", 5242880⟩)).valid = true
    ∧ fileFilter (⟨"image/png", 5242880⟩ : File).type = true
    ∧ (⟨"image/png", 5242880⟩ : File).size ≤ 5 * 1024 * 1024
    ∧ (⟨"image/png", 5242880⟩ : File).size ≤ fileSizeLimit :=
  ⟨by decide, validateImage_implies_upload_checks ⟨"image/png", 5242880⟩ (by decide)⟩

/-- C30: when `toLowerCase` turns each character into a non-empty run of
characters of the same white-space class and turns only `@` into `@` and only
`.` into `.`, every address whose stored form (trimmed and lower-cased) passes
the validators of the User model also passes the email check of the Register
and Login forms: it is not empty and the pattern without anchors finds a match
in it. -/
theorem client_accepts_backend_emails (L : Lib) (e : String) (name password : Option String)
    (hL : ∀ s : String, ∃ segs,
      List.Forall₂ (fun (c : Char) (seg : List Char) =>
          seg ≠ [] ∧ (∀ d ∈ seg, isWhiteSpace d = isWhiteSpace c)
            ∧ ('@' ∈ seg → c = '@' ∧ seg = ['@']) ∧ ('.' ∈ seg → c = '.' ∧ seg = ['.'])) s.data segs
        ∧ (L.toLowerCase s).data = segs.flatten)
    (hB : userFailures name (some (userEmailSet L e)) password = []) :
    RegisterPage.emailError e = none
    ∧ LoginPage.emailError e = none
    ∧ e ≠ ""
    ∧ testAtoms e.data emailPattern = true := by
  obtain ⟨_, hm⟩ := userFailures_email name password _ hB
  obtain ⟨segs, hseg, hlow⟩ := hL (trim e)
  have hm2 : matchAtoms (trimChars e.data) emailPattern = true := by
    apply matchAtoms_of_segments _ (fun c seg h => h.1) (fun c seg h => h.2.1)
      (fun c seg h => h.2.2.1) (fun c seg h => h.2.2.2) (trimChars e.data) segs hseg
    rw [← hlow]
    exact hm
  obtain ⟨w1, w2, hw⟩ := trimChars_surrounded e.data
  have ht : testAtoms e.data emailPattern = true := by
    rw [hw]
    exact testAtoms_of_match w1 _ w2 emailPattern hm2
  have hne : e ≠ "" := by
    intro he
    subst he
    exact absurd hm2 (by decide)
  refine ⟨?_, ?_, hne, ht⟩
  · simp [RegisterPage.emailError, hne, ht]
  · simp [LoginPage.emailError, hne, ht]

theorem client_accepts_backend_emails_witness :
    userFailures (some "Eve") (some (userEmailSet demoLib "  Eve@X.com ")) (some "secret1") = []
    ∧ RegisterPage.emailError "  Eve@X.com " = none
    ∧ LoginPage.emailError "  Eve@X.com " = none
    ∧ "  Eve@X.com " ≠ ""
    ∧ testAtoms "  Eve@X.com ".data emailPattern = true :=
  ⟨by decide,
    client_accepts_backend_emails demoLib "  Eve@X.com " (some "Eve") (some "secret1")
      demoLib_toLowerCase_segments (by decide)⟩

/-! ## The auth store -/

/-- C27, as stated, fails: after a login whose response is successful but has
no `token` member, `isAuthenticated` is `true` while `token` is not a string. -/
theorem login_without_token_counterexample :
    (login freshAuthState ⟨none, none, false⟩
        (.response true (.ok ⟨none, none, some "7"⟩))).1.isAuthenticated = true
    ∧ (login freshAuthState ⟨none, none, false⟩
        (.response true (.ok ⟨none, none, some "7"⟩))).1.token = none
    ∧ ¬ ((login freshAuthState ⟨none, none, false⟩
          (.response true (.ok ⟨none, none, some "7"⟩))).1.isAuthenticated = true
        ↔ ∃ t, (login freshAuthState ⟨none, none, false⟩
          (.response true (.ok ⟨none, none, some "7"⟩))).1.token = some t ∧ t ≠ "") := by
  refine ⟨rfl, rfl, ?_⟩
  intro h
  obtain ⟨t, ht, _⟩ := h.mp rfl
  have hnone : (login freshAuthState ⟨none, none, false⟩
      (.response true (.ok ⟨none, none, some "7"⟩))).1.token = none := rfl
  rw [hnone] at ht
  exact Option.noConfusion ht

/-- C27, amended: in the initial state, after `logout` and after `checkAuth`,
for every content of localStorage, `isAuthenticated` is `true` exactly when
`token` is a non-empty string. `updateUser`, `clearError` and a `login` or
`register` that does not succeed leave `token` and `isAuthenticated` as they
were. After a successful `login` or `register`, `isAuthenticated` is `true` and
`token` is the `token` member of the response body, so the two agree when that
member is a non-empty string. -/
theorem authStore_token_flag (jsonValid : String → Bool)
    (merge : Option String → String → String) (st : AuthState) (ls : LocalStorage) :
    ((AuthState.init jsonValid ls).1.isAuthenticated = true
        ↔ ∃ t, (AuthState.init jsonValid ls).1.token = some t ∧ t ≠ "")
    ∧ ((logout st ls).1.isAuthenticated = true
        ↔ ∃ t, (logout st ls).1.token = some t ∧ t ≠ "")
    ∧ ((checkAuth jsonValid st ls).1.isAuthenticated = true
        ↔ ∃ t, (checkAuth jsonValid st ls).1.token = some t ∧ t ≠ "")
    ∧ (∀ userData, (updateUser merge st ls userData).1.token = st.token
        ∧ (updateUser merge st ls userData).1.isAuthenticated = st.isAuthenticated)
    ∧ ((clearError st).token = st.token ∧ (clearError st).isAuthenticated = st.isAuthenticated)
    ∧ (∀ result, (¬ ∃ data, result = .response true (.ok data)) →
        ((login st ls result).1.token = st.token
          ∧ (login st ls result).1.isAuthenticated = st.isAuthenticated)
        ∧ ((register st ls result).1.token = st.token
          ∧ (register st ls result).1.isAuthenticated = st.isAuthenticated))
    ∧ (∀ data,
        ((login st ls (.response true (.ok data))).1.isAuthenticated = true
          ∧ (login st ls (.response true (.ok data))).1.token = data.token)
        ∧ ((register st ls (.response true (.ok data))).1.isAuthenticated = true
          ∧ (register st ls (.response true (.ok data))).1.token = data.token))
    ∧ (∀ data t, data.token = some t → t ≠ "" →
        ((login st ls (.response true (.ok data))).1.isAuthenticated = true
          ↔ ∃ u, (login st ls (.response true (.ok data))).1.token = some u ∧ u ≠ "")
        ∧ ((register st ls (.response true (.ok data))).1.isAuthenticated = true
          ↔ ∃ u, (register st ls (.response true (.ok data))).1.token = some u ∧ u ≠ "")) := by
  refine ⟨?_, ?_, ?_, ?_, ⟨rfl, rfl⟩, ?_, ?_, ?_⟩
  · exact truthy_iff _
  · constructor
    · intro h
      exact absurd h (by simp [logout])
    · rintro ⟨t, ht, _⟩
      exact absurd ht (by simp [logout])
  · exact truthy_iff _
  · intro userData
    exact ⟨rfl, rfl⟩
  · intro result hno
    cases result with
    | rejected m => exact ⟨⟨rfl, rfl⟩, ⟨rfl, rfl⟩⟩
    | response ok body =>
      cases body with
      | error m => cases ok <;> exact ⟨⟨rfl, rfl⟩, ⟨rfl, rfl⟩⟩
      | ok data =>
        cases ok with
        | false => exact ⟨⟨rfl, rfl⟩, ⟨rfl, rfl⟩⟩
        | true => exact absurd ⟨data, rfl⟩ hno
  · intro data
    exact ⟨⟨rfl, rfl⟩, ⟨rfl, rfl⟩⟩
  · intro data t ht hne
    have hl : (login st ls (.response true (.ok data))).1.token = some t := ht
    have hr : (register st ls (.response true (.ok data))).1.token = some t := ht
    exact ⟨⟨fun _ => ⟨t, hl, hne⟩, fun _ => rfl⟩, ⟨fun _ => ⟨t, hr, hne⟩, fun _ => rfl⟩⟩

end BlogApp
